import Mathlib

/-!
Shallow embedding of the SlippiStats replay-analysis engine
(`src/main.js`, `statsProcessor` section) in Lean 4.

JavaScript numbers are modelled as `Nat`/`Int`/`Q` (durations and damage
percentages are `Q`); nullable JS values are modelled with `Option`;
JS objects used as string-keyed maps are modelled as insertion-ordered
association lists.  The external decoder (`@slippi/slippi-js`) and the
filesystem are out of scope: a replay file is modelled by its content hash
(the result of `hashReplayFile`, `none` on read failure) together with the
`gameData` record the decoder would produce for it.
-/

namespace SlippiStats

/-- Character lookup table (`characters` in main.js), indexed by character id. -/
def characters : List String :=
  [ "Captain Falcon", "Donkey Kong", "Fox", "Mr. Game & Watch", "Kirby", "Bowser",
    "Link", "Luigi", "Mario", "Marth", "Mewtwo", "Ness", "Peach", "Pikachu",
    "Ice Climbers", "Jigglypuff", "Samus", "Yoshi", "Zelda", "Sheik", "Falco",
    "Young Link", "Dr. Mario", "Roy", "Pichu", "Ganondorf", "Master Hand",
    "Male Wireframe", "Female Wireframe", "Giga Bowser", "Crazy Hand", "Sandbag",
    "Popo", "Unknown" ]

/-- JS `toLowerCase` (character-wise lowering). -/
def strToLower (s : String) : String := String.mk (s.data.map Char.toLower)

/-- JS `trim`: strip leading and trailing whitespace. -/
def strTrim (s : String) : String :=
  String.mk (((s.data.dropWhile Char.isWhitespace).reverse.dropWhile
    Char.isWhitespace).reverse)

/-- `characters_lowercase` in main.js. -/
def characters_lowercase : List String := characters.map (fun c => strToLower c)

/-- Stage lookup table (`stages` in main.js); `none` models the JS `null` slots. -/
def stages : List (Option String) :=
  [ none, none, some "Fountain of Dreams", some "Pokémon Stadium",
    some "Princess Peach's Castle", some "Kongo Jungle", some "Brinstar",
    some "Corneria", some "Yoshi's Story", some "Onett", some "Mute City",
    some "Rainbow Cruise", some "Jungle Japes", some "Great Bay",
    some "Hyrule Temple", some "Brinstar Depths", some "Yoshi's Island",
    some "Green Greens", some "Fourside", some "Mushroom Kingdom I",
    some "Mushroom Kingdom II", none, some "Venom", some "Poké Floats",
    some "Big Blue", some "Icicle Mountain", some "Icetop", some "Flat Zone",
    some "Dream Land N64", some "Yoshi's Island N64", some "Kongo Jungle N64",
    some "Battlefield", some "Final Destination" ]

/-- Does `hay` start with `needle` (over character lists)?  Models JS
`String.prototype.startsWith` / `includes` over code points. -/
def seqStartsWith : List Char → List Char → Bool
  | _, [] => true
  | [], _ :: _ => false
  | c :: cs, d :: ds => c == d && seqStartsWith cs ds

/-- `modes` in main.js; iteration order of a JS object literal is insertion order. -/
def modes : List (String × String) :=
  [("mode.ranked", "Ranked"), ("mode.unranked", "Unranked"), ("mode.direct", "Direct")]

/-- `getMatchType` in main.js: first mode whose key the match id starts with. -/
def getMatchType (matchId : String) : String :=
  if matchId = "" then "Unknown"
  else
    match modes.find? (fun p => seqStartsWith matchId.data p.1.data) with
    | some p => p.2
    | none => "Unknown"

/-- `metadata.players[i].names` of the decoder output (missing fields become `""`). -/
structure MetaNames where
  netplay : String
  code : String
deriving DecidableEq, Repr

/-- Result of `extractIdentity` in main.js. -/
structure Identity where
  tagLower : List String
  displayName : String
  connectCode : String
deriving DecidableEq, Repr

/-- `extractIdentity` in main.js; `none` covers both a missing player entry and
missing `names`.  `filter(Boolean)` drops empty strings. -/
def extractIdentity : Option MetaNames → Identity
  | none => ⟨[], "", ""⟩
  | some m =>
      ⟨([strToLower m.netplay, strToLower m.code].filter (fun s => s ≠ "")), m.netplay, m.code⟩

/-- Does `hay` contain `needle` as a contiguous subsequence?  Models the JS
`String.prototype.includes` used for tag matching. -/
def seqContains (hay needle : List Char) : Bool :=
  match hay with
  | [] => seqStartsWith [] needle
  | c :: cs => seqStartsWith (c :: cs) needle || seqContains cs needle

/-- JS `playerTag.includes(req)`. -/
def includesStr (playerTag req : String) : Bool := seqContains playerTag.data req.data

/-- `matchesAnyTag` in main.js. -/
def matchesAnyTag (identity : Identity) (wantedListLower : List String) : Bool :=
  if wantedListLower.isEmpty then true
  else if identity.tagLower.isEmpty then false
  else identity.tagLower.any (fun playerTag =>
    wantedListLower.any (fun req => includesStr playerTag req))

/-- `isIgnoredOpponent` in main.js. -/
def isIgnoredOpponent (identity : Identity) (ignoredLower : List String) : Bool :=
  if ignoredLower.isEmpty then false
  else if identity.tagLower.isEmpty then false
  else identity.tagLower.any (fun playerTag =>
    ignoredLower.any (fun ign => includesStr playerTag ign))

/-- JS `Array.prototype.indexOf` (first index of an exact match, `-1` → `none`). -/
def jsIndexOf (l : List String) (x : String) : Option Nat :=
  match l with
  | [] => none
  | y :: rest => if y = x then some 0 else (jsIndexOf rest x).map (· + 1)

/-- The `{num, name}` record returned by `resolveCharacterFilter`. -/
structure CharFilter where
  num : Nat
  name : String
deriving DecidableEq, Repr

/-- `resolveCharacterFilter` in main.js.  `none` argument models a JS
`null`/`undefined` request; the empty string is also falsy in JS.  Note that an
unrecognized name returns `null` exactly like an absent one. -/
def resolveCharacterFilter : Option String → Option CharFilter
  | none => none
  | some s =>
      if s = "" then none
      else
        match jsIndexOf characters_lowercase (strToLower s) with
        | none => none
        | some idx => some ⟨idx, characters.getD idx ""⟩

/-! ### Exact rationals

JS numbers that are not integers (durations in seconds, damage percentages,
win rates) are modelled as exact rationals.  A bespoke normalized fraction
type is used so that every operation reduces inside the kernel (the gcd uses
structural fuel recursion). -/

/-- Euclid's algorithm with explicit fuel (structural recursion). -/
def natGcdF : Nat → Nat → Nat → Nat
  | 0, a, _ => a
  | f + 1, a, b => if b = 0 then a else natGcdF f b (a % b)

/-- `Nat` gcd via fuelled Euclid; the fuel `a + b + 1` is always sufficient. -/
def natGcd (a b : Nat) : Nat := natGcdF (a + b + 1) a b

/-- A rational number as a normalized fraction with positive denominator. -/
structure Q where
  num : Int
  den : Nat
deriving DecidableEq, Repr

namespace Q

/-- Build a normalized fraction from numerator and positive denominator. -/
def mkPos (n : Int) (d : Nat) : Q :=
  let g := natGcd n.natAbs d
  if g = 0 then ⟨0, 1⟩ else ⟨n / (g : Int), d / g⟩

/-- Build a normalized fraction from numerator and any denominator (zero
denominators, which this code never produces, collapse to 0). -/
def mkQ (n d : Int) : Q :=
  if d = 0 then ⟨0, 1⟩
  else if d < 0 then mkPos (-n) (-d).toNat
  else mkPos n d.toNat

def ofInt (n : Int) : Q := ⟨n, 1⟩

def add (a b : Q) : Q := mkPos (a.num * b.den + b.num * a.den) (a.den * b.den)

def neg (a : Q) : Q := ⟨-a.num, a.den⟩

def sub (a b : Q) : Q := add a (neg b)

def mul (a b : Q) : Q := mkPos (a.num * b.num) (a.den * b.den)

def div (a b : Q) : Q := mkQ (a.num * b.den) (b.num * a.den)

/-- Floor to an integer (denominators are positive). -/
def floor (a : Q) : Int := Int.fdiv a.num a.den

instance : OfNat Q n := ⟨⟨(n : Int), 1⟩⟩
instance : NatCast Q := ⟨fun n => ⟨(n : Int), 1⟩⟩
instance : IntCast Q := ⟨fun n => ⟨n, 1⟩⟩
instance : Add Q := ⟨add⟩
instance : Sub Q := ⟨sub⟩
instance : Neg Q := ⟨neg⟩
instance : Mul Q := ⟨mul⟩
instance : Div Q := ⟨div⟩
instance : LT Q := ⟨fun a b => a.num * (b.den : Int) < b.num * (a.den : Int)⟩
instance : LE Q := ⟨fun a b => a.num * (b.den : Int) ≤ b.num * (a.den : Int)⟩

instance (a b : Q) : Decidable (a < b) :=
  inferInstanceAs (Decidable (a.num * (b.den : Int) < b.num * (a.den : Int)))

instance (a b : Q) : Decidable (a ≤ b) :=
  inferInstanceAs (Decidable (a.num * (b.den : Int) ≤ b.num * (a.den : Int)))

end Q

/-- `settings.players[i]` of the decoder output. -/
structure SettingsPlayer where
  characterId : Option Int
deriving DecidableEq, Repr

/-- The parts of `game.getSettings()` the engine reads. -/
structure Settings where
  matchId : String
  stageId : Option Int
  players : List SettingsPlayer
deriving DecidableEq, Repr

/-- `stats.overall[i]` of the decoder output. -/
structure OverallStats where
  killCount : Nat
deriving DecidableEq, Repr

/-- `actionCounts[i].lCancelCount`. -/
structure LCancelCount where
  success : Nat
  fail : Nat
deriving DecidableEq, Repr

/-- `actionCounts[i].groundTechCount` (the JS field `in` is spelled `in_`). -/
structure GroundTechCount where
  away : Nat
  in_ : Nat
  neutral : Nat
  fail : Nat
deriving DecidableEq, Repr

/-- `actionCounts[i].throwCount`. -/
structure ThrowCount where
  up : Nat
  down : Nat
  forward : Nat
  back : Nat
deriving DecidableEq, Repr

/-- `stats.actionCounts[i]` of the decoder output; `none` fields model
`undefined` members. -/
structure ActionCounts where
  lCancelCount : Option LCancelCount
  wavedashCount : Option Nat
  rollCount : Option Nat
  ledgegrabCount : Option Nat
  dashDanceCount : Option Nat
  groundTechCount : Option GroundTechCount
  throwCount : Option ThrowCount
deriving DecidableEq, Repr

/-- The parts of `game.getStats()` the engine reads (missing → empty lists). -/
structure GameStats where
  overall : List OverallStats
  actionCounts : List ActionCounts
deriving DecidableEq, Repr

/-- The cached per-file record built in the analyze loop (`gameData`). -/
structure GameData where
  settings : Settings
  metaPlayers : List (Option MetaNames)
  stats : GameStats
  total_seconds : Q
  latestFramePercents : List Q
deriving DecidableEq, Repr

/-- `(stats?.overall?.[i]?.killCount) || 0` in main.js. -/
def killCountAt (stats : GameStats) (i : Nat) : Nat :=
  ((stats.overall.get? i).map (fun o => o.killCount)).getD 0

/-- JS `<` on two possibly-undefined numbers: comparisons involving
`undefined` are false. -/
def jsLt : Option Q → Option Q → Bool
  | some a, some b => decide (a < b)
  | _, _ => false

/-- `characters[charId] || "Unknown"` with a possibly-undefined id. -/
def charNameOf : Option Int → String
  | none => "Unknown"
  | some i =>
      if 0 ≤ i ∧ i < (characters.length : Int) then characters.getD i.toNat "Unknown"
      else "Unknown"

/-- `settings.players[i]?.characterId`. -/
def charIdAt (s : Settings) (i : Nat) : Option Int :=
  (s.players.get? i).bind (fun p => p.characterId)

/-- The character-filter guard `filter && filter.num !== charId` in main.js. -/
def charFilterRejects (flt : Option CharFilter) (charId : Option Int) : Bool :=
  match flt with
  | some f => !(charId == some (Int.ofNat f.num))
  | none => false

/-- `stages[stageId]` as a JS lookup: `none` for out-of-range indices and for
the `null` table slots alike. -/
def stageEntry : Option Int → Option String
  | none => none
  | some i =>
      if 0 ≤ i ∧ i < (stages.length : Int) then (stages.getD i.toNat none)
      else none

/-- The `data` object a fully-processed replay produces (`PerMatchFact`). -/
structure PerMatchFact where
  total_games : Nat
  total_wins : Nat
  total_seconds : Q
  game_seconds : Int
  player_character_num : Option Int
  player_character_name : String
  opponent_character_num : Option Int
  opponent_character_name : String
  stage_num : Option Int
  stage_name : String
  player_index : Nat
  player_name : String
  player_code : String
  opponent_index : Nat
  opponent_name : String
  opponent_code : String
deriving DecidableEq, Repr

/-- The three possible returns of `processSingleReplay`: JS `null`, the partial
`{total_seconds, game_seconds: 0}` exclusion object, or a complete fact. -/
inductive ReplayResult where
  | nullResult : ReplayResult
  | excluded (total_seconds : Q) : ReplayResult
  | fact (f : PerMatchFact) : ReplayResult
deriving DecidableEq, Repr

/-- The viewpoint-resolution block of `processSingleReplay` (main.js 316-348):
which participant is self and which is opponent, or no qualifying viewpoint. -/
def viewpointOf (p0 p1 : Identity)
    (wantedPlayersLower wantedOpponentLower : List String) : Option (Nat × Nat) :=
  let p0MatchesYou := matchesAnyTag p0 wantedPlayersLower
  let p1MatchesYou := matchesAnyTag p1 wantedPlayersLower
  let p0MatchesOppFilter := matchesAnyTag p0 wantedOpponentLower
  let p1MatchesOppFilter := matchesAnyTag p1 wantedOpponentLower
  if wantedOpponentLower.length > 0 then
    if p0MatchesYou && p1MatchesOppFilter then some (0, 1)
    else if p1MatchesYou && p0MatchesOppFilter then some (1, 0)
    else none
  else
    if p0MatchesYou && !p1MatchesYou then some (0, 1)
    else if p1MatchesYou && !p0MatchesYou then some (1, 0)
    else if p0MatchesYou && p1MatchesYou then some (0, 1)
    else none

/-- The win/loss determination of `processSingleReplay` (main.js 408-411):
more kills, or equal kills and strictly lower final damage percentage. -/
def didWinOf (gameData : GameData) (playerIndex opponentIndex : Nat) : Bool :=
  let latestPercPlayer := gameData.latestFramePercents.get? playerIndex
  let latestPercOpp := gameData.latestFramePercents.get? opponentIndex
  let playerKills := killCountAt gameData.stats playerIndex
  let opponentKills := killCountAt gameData.stats opponentIndex
  let moreKills := decide (playerKills > opponentKills)
  let lowerPercent := decide (playerKills = opponentKills) &&
    jsLt latestPercPlayer latestPercOpp
  moreKills || lowerPercent

/-- The validated stage id of `processSingleReplay` (main.js 414-417). -/
def validStageId (raw : Option Int) : Option Int :=
  match raw with
  | none => none
  | some s => if s < 0 ∨ s ≥ (stages.length : Int) then none else some s

/-- The `data` object populated for a fully-qualifying replay
(main.js 420-441). -/
def mkMatchFact (gameData : GameData) (playerIndex opponentIndex : Nat)
    (playerIdentity opponentIdentity : Identity) : PerMatchFact :=
  let playerCharId := charIdAt gameData.settings playerIndex
  let oppCharId := charIdAt gameData.settings opponentIndex
  let stageId := validStageId gameData.settings.stageId
  { total_games := 1
    total_wins := if didWinOf gameData playerIndex opponentIndex then 1 else 0
    total_seconds := gameData.total_seconds
    game_seconds := gameData.total_seconds.floor
    player_character_num := playerCharId
    player_character_name := charNameOf playerCharId
    opponent_character_num := oppCharId
    opponent_character_name := charNameOf oppCharId
    stage_num := stageId
    stage_name := (stageEntry stageId).getD "Unknown Stage"
    player_index := playerIndex
    player_name := playerIdentity.displayName
    player_code := playerIdentity.connectCode
    opponent_index := opponentIndex
    opponent_name := opponentIdentity.displayName
    opponent_code := opponentIdentity.connectCode }

/-- `processSingleReplay` in main.js (lines 267-452), minus the fs/decoder
plumbing: classify one replay against the resolved filters. -/
def processSingleReplay (gameData : GameData)
    (wantedPlayersLower wantedOpponentLower ignoredOpponentsLower : List String)
    (playerCharacterFilter opponentCharacterFilter : Option CharFilter)
    (rankedOnly : Bool) : ReplayResult :=
  let settings := gameData.settings
  let playersMeta := gameData.metaPlayers
  let p0 := extractIdentity (playersMeta.getD 0 none)
  let p1 := extractIdentity (playersMeta.getD 1 none)
  let matchType := getMatchType settings.matchId
  let total_seconds := gameData.total_seconds
  if rankedOnly && (matchType != "Ranked") then .excluded total_seconds
  else if (p0.displayName == "") || (p1.displayName == "") then .nullResult
  else if decide (playersMeta.length < 2) || decide (settings.players.length < 2) then
    .excluded total_seconds
  else
    match viewpointOf p0 p1 wantedPlayersLower wantedOpponentLower with
    | none => .excluded total_seconds
    | some (playerIndex, opponentIndex) =>
      let playerIdentity := if playerIndex = 0 then p0 else p1
      let opponentIdentity := if opponentIndex = 0 then p0 else p1
      if isIgnoredOpponent opponentIdentity ignoredOpponentsLower then
        .excluded total_seconds
      else
        let playerCharId := charIdAt settings playerIndex
        let oppCharId := charIdAt settings opponentIndex
        if charFilterRejects playerCharacterFilter playerCharId then
          .excluded total_seconds
        else if charFilterRejects opponentCharacterFilter oppCharId then
          .excluded total_seconds
        else
          let playerKills := killCountAt gameData.stats playerIndex
          let opponentKills := killCountAt gameData.stats opponentIndex
          let game_seconds : Int := total_seconds.floor
          if decide (game_seconds < 30) then .excluded total_seconds
          else if (playerKills == 0) && (opponentKills == 0) then .excluded total_seconds
          else
            .fact (mkMatchFact gameData playerIndex opponentIndex
              playerIdentity opponentIdentity)

/-! ## The analyze loop (`analyzeReplays`, main.js 455-1002) -/

/-- A replay file as the loop sees it: the content hash `hashReplayFile`
computes (`none` on read failure) and the `gameData` the decoder would
produce for its bytes. -/
structure ReplayFile where
  hash : Option String
  data : GameData
deriving DecidableEq, Repr

/-- `cache.results[hash]` lookup. -/
def lookupCache (c : List (String × GameData)) (h : String) : Option GameData :=
  (c.find? (fun p => p.1 = h)).map (fun p => p.2)

/-- `cache.results[hash] = gameData` on a fresh key (JS object insertion order). -/
def insertCache (c : List (String × GameData)) (h : String) (g : GameData) :
    List (String × GameData) :=
  c ++ [(h, g)]

/-- The hash/cache/decode step at the top of the loop body (main.js 544-583).
Returns the `gameData` used for this file, the updated cache, the number of
decoder invocations (0 or 1), and the `new_replays` increment (0 or 1). -/
def cacheStep (c : List (String × GameData)) (f : ReplayFile) :
    GameData × List (String × GameData) × Nat × Nat :=
  match f.hash with
  | some h =>
      match lookupCache c h with
      | some gd => (gd, c, 0, 0)
      | none => (f.data, insertCache c h f.data, 1, 1)
  | none => (f.data, c, 1, 0)

/-- Assoc-list bump: ensure the key exists (initialized to `0`) and add `d`;
new keys are appended, matching JS object insertion order. -/
def bumpAssoc {α : Type} [Zero α] [Add α] :
    List (String × α) → String → α → List (String × α)
  | [], k, d => [(k, 0 + d)]
  | (k', v) :: rest, k, d =>
      if k' = k then (k', v + d) :: rest else (k', v) :: bumpAssoc rest k d

/-- Assoc-list lookup (JS `obj[key]`, `none` = `undefined`). -/
def lookupAssoc {α : Type} : List (String × α) → String → Option α
  | [], _ => none
  | (k', v) :: rest, k => if k' = k then some v else lookupAssoc rest k

/-- One cell of the `matchups` object: `{games, wins, totalSeconds}`. -/
structure MatchupCell where
  games : Nat
  wins : Nat
  totalSeconds : Int
deriving DecidableEq, Repr

/-- Inner `matchups[pc][oc]` cell update: create the cell if absent, then
`games++`, conditionally `wins++`, `totalSeconds += game_seconds`. -/
def bumpMatchupInner (inner : List (String × MatchupCell)) (oc : String)
    (won : Bool) (gs : Int) : List (String × MatchupCell) :=
  let cell := (lookupAssoc inner oc).getD ⟨0, 0, 0⟩
  let cell' : MatchupCell :=
    ⟨cell.games + 1, cell.wins + (if won then 1 else 0), cell.totalSeconds + gs⟩
  match lookupAssoc inner oc with
  | some _ => inner.map (fun p => if p.1 = oc then (oc, cell') else p)
  | none => inner ++ [(oc, cell')]

/-- `matchups[pc][oc]` update (main.js 661-673). -/
def bumpMatchup (m : List (String × List (String × MatchupCell)))
    (pc oc : String) (won : Bool) (gs : Int) :
    List (String × List (String × MatchupCell)) :=
  match lookupAssoc m pc with
  | some _ => m.map (fun p => if p.1 = pc then (pc, bumpMatchupInner p.2 oc won gs) else p)
  | none => m ++ [(pc, bumpMatchupInner [] oc won gs)]

/-- The four `throwCounts` accumulators. -/
structure ThrowCounts where
  up : Nat
  down : Nat
  forward : Nat
  back : Nat
deriving DecidableEq, Repr

/-- The aggregate accumulators of `analyzeReplays` (main.js 477-516), except
`new_replays` which lives in `RunState` because it tracks the cache rather
than match facts.  The `nickname_*`, `code_*` and `opponent_*` tables and the
`character_head_to_head` matrix are declared in the source but never written,
so they are omitted here and appear as constants in the report builder. -/
structure AggState where
  total_games : Nat
  total_wins : Nat
  total_seconds : Q
  counted_seconds : Int
  characterPlaytime : List (String × Int)
  lCancelSuccessTotal : Nat
  lCancelFailTotal : Nat
  wavedashTotal : Nat
  rollTotal : Nat
  ledgegrabTotal : Nat
  dashDanceTotal : Nat
  techSuccessTotal : Nat
  techFailTotal : Nat
  totalStocksTaken : Nat
  totalStocksLost : Nat
  throwCounts : ThrowCounts
  currentStreak : Nat
  bestWinStreak : Nat
  stage_totals : List (String × Nat)
  stage_wins : List (String × Nat)
  stage_playtime : List (String × Int)
  matchups : Option (List (String × List (String × MatchupCell)))
  skippedCount : Nat
deriving DecidableEq, Repr

/-- Fresh accumulators at the top of `analyzeReplays`. -/
def initAgg : AggState :=
  { total_games := 0, total_wins := 0, total_seconds := 0, counted_seconds := 0
    characterPlaytime := [], lCancelSuccessTotal := 0, lCancelFailTotal := 0
    wavedashTotal := 0, rollTotal := 0, ledgegrabTotal := 0, dashDanceTotal := 0
    techSuccessTotal := 0, techFailTotal := 0, totalStocksTaken := 0
    totalStocksLost := 0, throwCounts := ⟨0, 0, 0, 0⟩, currentStreak := 0
    bestWinStreak := 0, stage_totals := [], stage_wins := [], stage_playtime := []
    matchups := none, skippedCount := 0 }

/-- Events sent to the renderer window. -/
inductive Event where
  | progress (processed total : Nat)
  | cancelledEv
  | matchLog (p1 p2 stage : String) (userWon : Bool)
deriving DecidableEq, Repr

/-- Misc block, L-cancels (main.js 681-684). -/
def lCancelUpd (agg : AggState) (actions : Option ActionCounts) : AggState :=
  match actions.bind (fun a => a.lCancelCount) with
  | some lc => { agg with lCancelSuccessTotal := agg.lCancelSuccessTotal + lc.success,
                          lCancelFailTotal := agg.lCancelFailTotal + lc.fail }
  | none => agg

/-- Misc block, wavedashes (main.js 687-689). -/
def wavedashUpd (agg : AggState) (actions : Option ActionCounts) : AggState :=
  match actions.bind (fun a => a.wavedashCount) with
  | some w => { agg with wavedashTotal := agg.wavedashTotal + w }
  | none => agg

/-- Misc block, rolls (main.js 692-694). -/
def rollUpd (agg : AggState) (actions : Option ActionCounts) : AggState :=
  match actions.bind (fun a => a.rollCount) with
  | some r => { agg with rollTotal := agg.rollTotal + r }
  | none => agg

/-- Misc block, ledge grabs (main.js 697-699). -/
def ledgegrabUpd (agg : AggState) (actions : Option ActionCounts) : AggState :=
  match actions.bind (fun a => a.ledgegrabCount) with
  | some l => { agg with ledgegrabTotal := agg.ledgegrabTotal + l }
  | none => agg

/-- Misc block, dash dances (main.js 702-704). -/
def dashDanceUpd (agg : AggState) (actions : Option ActionCounts) : AggState :=
  match actions.bind (fun a => a.dashDanceCount) with
  | some d => { agg with dashDanceTotal := agg.dashDanceTotal + d }
  | none => agg

/-- Misc block, ground teching (main.js 707-711). -/
def groundTechUpd (agg : AggState) (actions : Option ActionCounts) : AggState :=
  match actions.bind (fun a => a.groundTechCount) with
  | some g => { agg with
      techSuccessTotal := agg.techSuccessTotal + (g.away + g.in_ + g.neutral),
      techFailTotal := agg.techFailTotal + g.fail }
  | none => agg

/-- Misc block, stocks taken/lost (main.js 713-718). -/
def stocksUpd (agg : AggState) (stats : GameStats) (pIndex oIndex : Nat) : AggState :=
  { agg with totalStocksTaken := agg.totalStocksTaken + killCountAt stats pIndex,
             totalStocksLost := agg.totalStocksLost + killCountAt stats oIndex }

/-- Misc block, throws (main.js 721-726). -/
def throwsUpd (agg : AggState) (actions : Option ActionCounts) : AggState :=
  match actions.bind (fun a => a.throwCount) with
  | some t => { agg with throwCounts :=
      ⟨agg.throwCounts.up + t.up, agg.throwCounts.down + t.down,
       agg.throwCounts.forward + t.forward, agg.throwCounts.back + t.back⟩ }
  | none => agg

/-- Misc block, win streak (main.js 729-734). -/
def streakUpd (agg : AggState) (total_wins : Nat) : AggState :=
  if total_wins ≠ 0 then
    let cs := agg.currentStreak + 1
    { agg with currentStreak := cs,
               bestWinStreak := if cs > agg.bestWinStreak then cs else agg.bestWinStreak }
  else
    { agg with currentStreak := 0 }

/-- The misc-stats block (main.js 676-737), as the composition of its
per-counter updates. -/
def miscUpdate (agg : AggState) (gameData : GameData) (f : PerMatchFact) : AggState :=
  let actions := gameData.stats.actionCounts.get? f.player_index
  streakUpd
    (throwsUpd
      (stocksUpd
        (groundTechUpd
          (dashDanceUpd
            (ledgegrabUpd
              (rollUpd
                (wavedashUpd
                  (lCancelUpd agg actions)
                  actions)
                actions)
              actions)
            actions)
          actions)
        gameData.stats f.player_index f.opponent_index)
      actions)
    f.total_wins

/-- JS `a || b` on strings: first operand unless it is empty. -/
def jsOrS (a b : String) : String := if a = "" then b else a

/-- The per-file aggregation step after the cache lookup (main.js 586-762):
dispatch on the `processSingleReplay` result, validate the stage, accumulate,
and emit the match-log and progress events.  Returns the updated accumulators
and the events emitted for this file.  The source's second stage-validity
check (main.js 621-629) duplicates the first one verbatim and is unreachable,
so it has no counterpart here. -/
def applyGd (wantedPlayersLower wantedOpponentLower ignoredOpponentsLower : List String)
    (playerCharacterFilter opponentCharacterFilter : Option CharFilter)
    (rankedOnly : Bool) (n i : Nat) (agg : AggState) (gameData : GameData) :
    AggState × List Event :=
  let result := processSingleReplay gameData wantedPlayersLower wantedOpponentLower
    ignoredOpponentsLower playerCharacterFilter opponentCharacterFilter rankedOnly
  match result with
  | .nullResult => ({ agg with skippedCount := agg.skippedCount + 1 }, [])
  | .excluded _ =>
      -- the partial object has no `stage_num`, so the loop's stage validation
      -- (main.js 603-611) routes it to `skippedCount++` and `continue`
      ({ agg with skippedCount := agg.skippedCount + 1 }, [])
  | .fact f =>
      match stageEntry f.stage_num with
      | none => ({ agg with skippedCount := agg.skippedCount + 1 }, [])
      | some stageName =>
          let agg := { agg with
            total_games := agg.total_games + f.total_games
            total_wins := agg.total_wins + f.total_wins
            total_seconds := agg.total_seconds + f.total_seconds
            counted_seconds := agg.counted_seconds + f.game_seconds
            stage_totals := bumpAssoc agg.stage_totals stageName 1
            stage_wins := bumpAssoc agg.stage_wins stageName (if f.total_wins ≠ 0 then 1 else 0)
            stage_playtime := bumpAssoc agg.stage_playtime stageName f.game_seconds
            -- `if (!matchups) var matchups = {}` runs before the character check
            matchups := some (agg.matchups.getD []) }
          let playerCharacter := f.player_character_name
          let opponentCharacter := f.opponent_character_name
          if playerCharacter = "" ∨ opponentCharacter = "" ∨
             playerCharacter = "Unknown" ∨ opponentCharacter = "Unknown" ∨
             playerCharacter = "undefined" ∨ opponentCharacter = "undefined" then
            -- `continue`: skips the matchup, misc and event code below
            (agg, [])
          else
            let agg := { agg with
              characterPlaytime := bumpAssoc agg.characterPlaytime playerCharacter f.game_seconds
              matchups := some (bumpMatchup (agg.matchups.getD []) playerCharacter
                opponentCharacter (f.total_wins ≠ 0) f.game_seconds) }
            let agg := miscUpdate agg gameData f
            let p1 := jsOrS (jsOrS f.player_name f.player_code) "P1"
            let p2 := jsOrS (jsOrS f.opponent_name f.opponent_code) "P2"
            let stage := (stageEntry f.stage_num).getD "Unknown"
            let userWon := decide (f.total_wins > 0)
            (agg, [Event.matchLog p1 p2 stage userWon, Event.progress (i + 1) n])

/-- The mutable state threaded through the loop besides the accumulators. -/
structure RunState where
  agg : AggState
  cache : List (String × GameData)
  events : List Event
  new_replays : Nat
  decodeCalls : Nat
deriving DecidableEq, Repr

/-- One full loop iteration (main.js 531-764) for file index `i` of `n`. -/
def processFile (wantedPlayersLower wantedOpponentLower ignoredOpponentsLower : List String)
    (playerCharacterFilter opponentCharacterFilter : Option CharFilter)
    (rankedOnly : Bool) (n : Nat) (st : RunState) (i : Nat) (file : ReplayFile) :
    RunState :=
  let c := cacheStep st.cache file
  let r := applyGd wantedPlayersLower wantedOpponentLower ignoredOpponentsLower
    playerCharacterFilter opponentCharacterFilter rankedOnly n i st.agg c.1
  { agg := r.1, cache := c.2.1, events := st.events ++ r.2,
    new_replays := st.new_replays + c.2.2.2, decodeCalls := st.decodeCalls + c.2.2.1 }

/-- Is the shared `cancelRequested` flag observed set at the check before
iteration `i`?  `cancelAt = some k` models a `cancelAnalysis()` call arriving
during the event-loop yield before iteration `k`. -/
def cancelObserved : Option Nat → Nat → Bool
  | some k, i => decide (k ≤ i)
  | none, _ => false

/-- The main replay-processing loop with cooperative cancellation. -/
def runLoop (wantedPlayersLower wantedOpponentLower ignoredOpponentsLower : List String)
    (playerCharacterFilter opponentCharacterFilter : Option CharFilter)
    (rankedOnly : Bool) (n : Nat) :
    RunState → Nat → List ReplayFile → Option Nat → RunState
  | st, _, [], _ => st
  | st, i, file :: rest, cancelAt =>
      if cancelObserved cancelAt i then
        { st with events := st.events ++ [Event.cancelledEv] }
      else
        runLoop wantedPlayersLower wantedOpponentLower ignoredOpponentsLower
          playerCharacterFilter opponentCharacterFilter rankedOnly n
          (processFile wantedPlayersLower wantedOpponentLower ignoredOpponentsLower
            playerCharacterFilter opponentCharacterFilter rankedOnly n st i file)
          (i + 1) rest cancelAt

/-! ## Rendering helpers and the report builder (main.js 776-1002) -/

/-- Insert `x` before the first element `y` with `le x y`; since `x` precedes
the already-inserted elements in the original list, placing it before its
ties preserves their original relative order. -/
def stableInsert {α : Type} (le : α → α → Bool) (x : α) : List α → List α
  | [] => [x]
  | y :: ys => if le x y then x :: y :: ys else y :: stableInsert le x ys

/-- Stable sort by a total boolean preorder `le`, modelling JS
`Array.prototype.sort` with comparator `c` where `le a b = (c a b ≤ 0)`
(ES2019 guarantees stability, which makes the result unique, so any stable
sort is a faithful model). -/
def jsSort {α : Type} (le : α → α → Bool) : List α → List α
  | [] => []
  | x :: xs => stableInsert le x (jsSort le xs)

/-- The rounded value underlying `x.toFixed(2)` for the non-negative numbers
this code formats: the nearest multiple of 1/100, half away from zero. -/
def jsRound2 (q : Q) : Nat := ((q * 100 + 1 / 2).floor).toNat

/-- The decimal digit character for `d < 10`. -/
def digitChar (d : Nat) : Char := Char.ofNat (48 + d)

/-- The two fractional digits of `n / 100`. -/
def fracPart2 (n : Nat) : String := String.mk [digitChar (n / 10 % 10), digitChar (n % 10)]

/-- JS `x.toFixed(2)` for the non-negative rationals this code formats. -/
def toFixed2 (q : Q) : String :=
  toString (jsRound2 q / 100) ++ "." ++ fracPart2 (jsRound2 q)

/-- JS `%` (remainder) for the non-negative operands used by `secondsToHMS`. -/
def jsMod (a b : Q) : Q := a - b * ((a / b).floor : Int)

/-- The `format` closure of `secondsToHMS`: floor, then pad with a single
leading zero stripped back down to at least two digits. -/
def fmtHMS (v : Q) : String :=
  let n : Int := v.floor
  if n < 10 then "0" ++ toString n else toString n

/-- `secondsToHMS` in main.js. -/
def secondsToHMS (seconds : Q) : String :=
  let hours := seconds / 3600
  let minutes := (jsMod seconds 3600) / 60
  String.intercalate ":" ([hours, minutes, jsMod seconds 60].map fmtHMS)

/-- A win-rate value: the zero-games report shape stores the number `0`, the
found-games shape stores a `toFixed(2)` string. -/
inductive RateVal where
  | num (q : Q)
  | str (s : String)
deriving DecidableEq, Repr

/-- One value of the `sortedStageResults` object. -/
structure StageRow where
  games : Nat
  wins : Nat
  winrate : String
  playtime : String
deriving DecidableEq, Repr

/-- One element of `matchup_results`. -/
structure MatchupRow where
  yourCharacter : String
  opponentCharacter : String
  games : Nat
  wins : Nat
  winrate : String
deriving DecidableEq, Repr

/-- The `matchups` field of the result object: `matchups || matchup_results`
is the (insertion-ordered) nested object whenever it was created, and the
row list otherwise. -/
inductive MatchupsVal where
  | obj (m : List (String × List (String × MatchupCell)))
  | rows (rs : List MatchupRow)
deriving DecidableEq, Repr

/-- One element of `nickname_results` (the source never populates the
underlying tables, so these lists are always empty). -/
structure NickRow where
  nickname : String
  games : Nat
  wins : Nat
  winrate : String
  playtime : String
deriving DecidableEq, Repr

/-- One element of `code_results` (always empty, as for `NickRow`). -/
structure CodeRow where
  code : String
  games : Nat
  wins : Nat
  winrate : String
  playtime : String
deriving DecidableEq, Repr

/-- One element of `opponent_results` (always empty, as for `NickRow`). -/
structure OppRow where
  opponentCode : String
  games : Nat
  wins : Nat
  winrate : String
  playtime : String
deriving DecidableEq, Repr

/-- The echoed `filters` object. -/
structure FiltersEcho where
  playerTags : List String
  opponentTags : List String
  playerCharacter : Option String
  opponentCharacter : Option String
  ignoredOpponents : List String
deriving DecidableEq, Repr

/-- The `identity` object of the result (its four source variables are never
assigned, so it is always four empty strings). -/
structure Identity4 where
  playerName : String
  playerCode : String
  opponentName : String
  opponentCode : String
deriving DecidableEq, Repr

/-- The `misc` object of the result. -/
structure MiscStats where
  avgLcancelRate : String
  lCancelSuccessTotal : Nat
  lCancelFailTotal : Nat
  avgWavedashes : String
  wavedashTotal : Nat
  avgRolls : String
  rollTotal : Nat
  avgLedgegrabs : String
  ledgegrabTotal : Nat
  avgDashDances : String
  dashDanceTotal : Nat
  techSuccessRate : String
  techSuccessTotal : Nat
  techFailTotal : Nat
  totalStocksTaken : Nat
  totalStocksLost : Nat
  topThrowDir : String
  topThrowCount : Nat
  bestWinStreak : Nat
deriving DecidableEq, Repr

/-- The `summary` object of the found-games result. -/
structure FoundSummary where
  totalGames : Nat
  totalWins : Nat
  winRate : RateVal
  analyzedTime : String
  totalTimeAllReplays : String
  newReplaysCached : Nat
  totalReplaysScanned : Nat
  skippedReplays : Nat
deriving DecidableEq, Repr

/-- The `summary` object of the no-games result (note the numeric `winRate: 0`
and the `new_replays` key). -/
structure NoGamesSummary where
  totalGames : Nat
  totalWins : Nat
  winRate : RateVal
  analyzedTime : String
  totalTimeAllReplays : String
  new_replays : Nat
deriving DecidableEq, Repr

/-- The value returned by `analyzeReplays`: either the "no games found" shape
(main.js 776-801) or the full result object (main.js 967-999). -/
inductive Report where
  | noGames (message : String) (filters : FiltersEcho) (summary : NoGamesSummary)
  | found (filters : FiltersEcho) (identity : Identity4) (summary : FoundSummary)
      (stages : List (String × StageRow))
      (nicknames : List NickRow) (codes : List CodeRow) (opponents : List OppRow)
      (characterPlaytime : List (String × String))
      (matchups : MatchupsVal) (misc : MiscStats)
deriving DecidableEq, Repr

/-- The intermediate `stageResults` row (stage name kept inline for sorting). -/
structure StageResult where
  stage : String
  wins : Nat
  games : Nat
  winrate : String
  playtime : String
deriving DecidableEq, Repr

/-- `stageResults` assembly (main.js 808-824): one row per `stage_totals`
entry (insertion order), rates and playtime rendered. -/
def buildStageResults (agg : AggState) : List StageResult :=
  agg.stage_totals.map (fun p =>
    let stageName : String := p.1
    let games : Nat := p.2
    let wins : Nat := (lookupAssoc agg.stage_wins stageName).getD 0
    let playtime : Int := (lookupAssoc agg.stage_playtime stageName).getD 0
    let winrateForStage : String :=
      if games ≠ 0 then toFixed2 (((wins : Q) / (games : Q)) * 100) else "0.00"
    { stage := stageName, wins := wins, games := games,
      winrate := winrateForStage, playtime := secondsToHMS (playtime : Q) })

/-- `character_head_to_head` as initialized in main.js 509-511 — a 34×34 array
of `[wins, games, name]` cells that nothing ever writes to. -/
def character_head_to_head : List (List (Nat × Nat × String)) :=
  (List.range 34).map (fun _ => (List.range 34).map (fun i => (0, 0, characters.getD i "")))

/-- `matchup_results` assembly (main.js 888-906) from the head-to-head matrix. -/
def matchupRowsOf (m : List (List (Nat × Nat × String))) : List MatchupRow :=
  (m.enum.map (fun pr =>
    pr.2.filterMap (fun cell =>
      let wins := cell.1
      let games := cell.2.1
      let oppCharName := cell.2.2
      if games > 0 then
        some { yourCharacter := characters.getD pr.1 "",
               opponentCharacter := oppCharName, games := games, wins := wins,
               winrate := toFixed2 (((wins : Q) / (games : Q)) * 100) }
      else none))).flatten

/-- The misc-stats object assembly (main.js 916-964). -/
def buildMisc (agg : AggState) : MiscStats :=
  let totalLcancelAttempts := agg.lCancelSuccessTotal + agg.lCancelFailTotal
  let avgLcancelRate : Q :=
    if totalLcancelAttempts > 0 then
      ((agg.lCancelSuccessTotal : Q) / (totalLcancelAttempts : Q)) * 100
    else 0
  let avgWavedashes : Q :=
    if agg.total_games > 0 then (agg.wavedashTotal : Q) / (agg.total_games : Q) else 0
  let avgRolls : Q :=
    if agg.total_games > 0 then (agg.rollTotal : Q) / (agg.total_games : Q) else 0
  let avgLedgegrabs : Q :=
    if agg.total_games > 0 then (agg.ledgegrabTotal : Q) / (agg.total_games : Q) else 0
  let avgDashDances : Q :=
    if agg.total_games > 0 then (agg.dashDanceTotal : Q) / (agg.total_games : Q) else 0
  let techAttempts := agg.techSuccessTotal + agg.techFailTotal
  let techSuccessRate : Q :=
    if techAttempts > 0 then ((agg.techSuccessTotal : Q) / (techAttempts : Q)) * 100
    else 0
  let throwKeys : List (String × Nat) :=
    [("up", agg.throwCounts.up), ("down", agg.throwCounts.down),
     ("forward", agg.throwCounts.forward), ("back", agg.throwCounts.back)]
  let sortedThrowKeys := jsSort (fun a b => decide (b.2 ≤ a.2)) throwKeys
  let topThrowDir := ((sortedThrowKeys.head?).map (fun p => p.1)).getD ""
  let topThrowCount := (lookupAssoc throwKeys topThrowDir).getD 0
  { avgLcancelRate := toFixed2 avgLcancelRate ++ "%"
    lCancelSuccessTotal := agg.lCancelSuccessTotal
    lCancelFailTotal := agg.lCancelFailTotal
    avgWavedashes := toFixed2 avgWavedashes
    wavedashTotal := agg.wavedashTotal
    avgRolls := toFixed2 avgRolls
    rollTotal := agg.rollTotal
    avgLedgegrabs := toFixed2 avgLedgegrabs
    ledgegrabTotal := agg.ledgegrabTotal
    avgDashDances := toFixed2 avgDashDances
    dashDanceTotal := agg.dashDanceTotal
    techSuccessRate := toFixed2 techSuccessRate ++ "%"
    techSuccessTotal := agg.techSuccessTotal
    techFailTotal := agg.techFailTotal
    totalStocksTaken := agg.totalStocksTaken
    totalStocksLost := agg.totalStocksLost
    topThrowDir := topThrowDir
    topThrowCount := topThrowCount
    bestWinStreak := agg.bestWinStreak }

/-- The report assembly after the loop (main.js 776-1001). -/
def buildReport (agg : AggState) (new_replays : Nat) (nFiles : Nat)
    (options_playerTags options_opponentTags options_ignoredOpponents : List String)
    (options_playerCharacter options_opponentCharacter : Option String) : Report :=
  let filters : FiltersEcho :=
    { playerTags := options_playerTags, opponentTags := options_opponentTags,
      playerCharacter := options_playerCharacter,
      opponentCharacter := options_opponentCharacter,
      ignoredOpponents := options_ignoredOpponents }
  if agg.total_games = 0 then
    .noGames "No games found matching requested parameters." filters
      { totalGames := 0, totalWins := 0, winRate := .num 0,
        analyzedTime := "00:00:00",
        totalTimeAllReplays := secondsToHMS agg.total_seconds,
        new_replays := new_replays }
  else
    let win_rate :=
      toFixed2 (((agg.total_wins : Q) / (agg.total_games : Q)) * 100)
    let stageResults :=
      jsSort (fun a b => decide (b.games ≤ a.games)) (buildStageResults agg)
    let sortedStageResults :=
      stageResults.map (fun row =>
        (row.stage, ({ games := row.games, wins := row.wins, winrate := row.winrate,
                       playtime := row.playtime } : StageRow)))
    let matchup_results :=
      jsSort (fun a b => decide (b.games ≤ a.games)) (matchupRowsOf character_head_to_head)
    let characterPlaytimeResults :=
      agg.characterPlaytime.map (fun p => (p.1, secondsToHMS (p.2 : Q)))
    .found filters ⟨"", "", "", ""⟩
      { totalGames := agg.total_games, totalWins := agg.total_wins,
        winRate := .str win_rate,
        analyzedTime := secondsToHMS (agg.counted_seconds : Q),
        totalTimeAllReplays := secondsToHMS agg.total_seconds,
        newReplaysCached := new_replays, totalReplaysScanned := nFiles,
        skippedReplays := agg.skippedCount }
      sortedStageResults [] [] []
      characterPlaytimeResults
      (match agg.matchups with
       | some m => .obj m
       | none => .rows matchup_results)
      (buildMisc agg)

/-- The persisted cache document (`writeCache`, main.js 255-264). -/
structure CacheDoc where
  statsVersion : String
  slippiJsVersion : String
  user_player_arg : String
  results : List (String × GameData)
deriving DecidableEq, Repr

/-- Everything observable about one `analyzeReplays` run. -/
structure AnalyzeOutput where
  report : Report
  cacheDoc : CacheDoc
  events : List Event
  new_replays : Nat
  decodeCalls : Nat
deriving DecidableEq, Repr

/-- The raw filter options passed to `analyzeReplays`. -/
structure Options where
  playerTags : List String
  opponentTags : List String
  ignoredOpponents : List String
  playerCharacter : Option String
  opponentCharacter : Option String
  rankedOnly : Bool
deriving DecidableEq, Repr

/-- `s.toLowerCase().trim()` with `filter(Boolean)` over a tag list. -/
def normalizeTags (l : List String) : List String :=
  (l.map (fun s => strTrim (strToLower s))).filter (fun s => s ≠ "")

/-- The loop state at entry of the processing loop. -/
def initState (cache0 : List (String × GameData)) : RunState :=
  { agg := initAgg, cache := cache0, events := [], new_replays := 0, decodeCalls := 0 }

/-- The processing loop run from the initial state over the discovered
(sorted) file list.  `cache0` is the `results` table loaded by `loadCache`;
`cancelAt` is as in `cancelObserved`. -/
def runAll (files : List ReplayFile) (options : Options)
    (cache0 : List (String × GameData)) (cancelAt : Option Nat) : RunState :=
  let wantedPlayersLower := normalizeTags options.playerTags
  let wantedOpponentLower := normalizeTags options.opponentTags
  let ignoredOpponentsLower := normalizeTags options.ignoredOpponents
  let playerCharacterFilter := resolveCharacterFilter options.playerCharacter
  let opponentCharacterFilter := resolveCharacterFilter options.opponentCharacter
  runLoop wantedPlayersLower wantedOpponentLower ignoredOpponentsLower
    playerCharacterFilter opponentCharacterFilter options.rankedOnly
    files.length (initState cache0) 0 files cancelAt

/-- `analyzeReplays` (main.js 455-1002): run the loop, persist the cache,
build the report. -/
def analyzeReplays (files : List ReplayFile) (options : Options)
    (cache0 : List (String × GameData)) (cancelAt : Option Nat) : AnalyzeOutput :=
  let st := runAll files options cache0 cancelAt
  let cacheDoc : CacheDoc :=
    { statsVersion := "ui-port", slippiJsVersion := "unknown",
      user_player_arg := String.intercalate "," (normalizeTags options.playerTags),
      results := st.cache }
  { report := buildReport st.agg st.new_replays files.length
      options.playerTags options.opponentTags options.ignoredOpponents
      options.playerCharacter options.opponentCharacter
    cacheDoc := cacheDoc
    events := st.events
    new_replays := st.new_replays
    decodeCalls := st.decodeCalls }

/-! ## Concrete fixtures for witnesses and counterexamples -/

/-- Sample ranked two-player game: Fox (p0, "Alice") vs a chosen opponent
character (p1, "Bob") on Battlefield, with chosen kill counts and duration. -/
def exGame (oppChar : Int) (pKills oKills : Nat) (secs : Q) : GameData :=
  { settings := { matchId := "mode.ranked-2024-01-01", stageId := some 31,
                  players := [⟨some 2⟩, ⟨some oppChar⟩] }
    metaPlayers := [some ⟨"Alice", "ALIC#123"⟩, some ⟨"Bob", "BOB#456"⟩]
    stats := { overall := [⟨pKills⟩, ⟨oKills⟩], actionCounts := [] }
    total_seconds := secs
    latestFramePercents := [10, 50] }

/-- The same game with an unranked match id. -/
def exUnranked : GameData :=
  { exGame 9 3 1 90 with
    settings := { matchId := "mode.unranked-2024-01-01", stageId := some 31,
                  players := [⟨some 2⟩, ⟨some 9⟩] } }

/-- Options selecting "Alice" as the self player, no other filters. -/
def exOpts : Options := ⟨["Alice"], [], [], none, none, false⟩

/-- As `exOpts` but ranked-only. -/
def exOptsRanked : Options := ⟨["Alice"], [], [], none, none, true⟩

/-- As `exOpts` but with an unrecognized self-character filter name. -/
def exOptsBadChar : Options := ⟨["Alice"], [], [], some "masterchief", none, false⟩

/-- The fact `processSingleReplay` produces for `exGame 9 3 1 90` with the
self filter `["alice"]`. -/
def exFact : PerMatchFact :=
  { total_games := 1, total_wins := 1, total_seconds := 90, game_seconds := 90,
    player_character_num := some 2, player_character_name := "Fox",
    opponent_character_num := some 9, opponent_character_name := "Marth",
    stage_num := some 31, stage_name := "Battlefield",
    player_index := 0, player_name := "Alice", player_code := "ALIC#123",
    opponent_index := 1, opponent_name := "Bob", opponent_code := "BOB#456" }

/-- Four replays of the same matchup, three won and one lost: the 3-wins /
4-games example of the specification. -/
def exFour : List ReplayFile :=
  [⟨some "h1", exGame 9 3 1 90⟩, ⟨some "h2", exGame 9 3 0 91⟩,
   ⟨some "h3", exGame 9 1 3 92⟩, ⟨some "h4", exGame 9 4 2 93⟩]

/-- Three replays: one against Marth, then two against Falco, so the
first-inserted matchup cell has fewer games than the later one. -/
def exThree : List ReplayFile :=
  [⟨some "h1", exGame 9 3 1 90⟩, ⟨some "h2", exGame 20 2 1 91⟩,
   ⟨some "h3", exGame 20 0 3 92⟩]

/-! ## Report projections and auxiliary predicates -/

/-- `summary.totalGames` of either report shape. -/
def reportTotalGames : Report → Nat
  | .noGames _ _ s => s.totalGames
  | .found _ _ s _ _ _ _ _ _ _ => s.totalGames

/-- `summary.winRate` of either report shape. -/
def reportWinRateVal : Report → RateVal
  | .noGames _ _ s => s.winRate
  | .found _ _ s _ _ _ _ _ _ _ => s.winRate

/-- The `matchups` field of either report shape (the no-games shape carries
the empty list). -/
def reportMatchupsVal : Report → MatchupsVal
  | .noGames _ _ _ => .rows []
  | .found _ _ _ _ _ _ _ _ m _ => m

/-- The game counts of the matchup rows of a report, in report order (the
nested object is flattened in its insertion order, as a JS consumer
iterating it would see it). -/
def matchupGamesSeq : MatchupsVal → List Nat
  | .obj m => (m.map (fun pr => pr.2.map (fun q => q.2.games))).flatten
  | .rows rs => rs.map (fun r => r.games)

/-- Is the list non-increasing? -/
def sortedDescBool : List Nat → Bool
  | [] => true
  | [_] => true
  | a :: b :: t => decide (b ≤ a) && sortedDescBool (b :: t)

/-- Number of progress events in an event list. -/
def countProgress (l : List Event) : Nat :=
  (l.filter (fun e => match e with | .progress _ _ => true | _ => false)).length

/-- The replay is dropped by one of the checks the claims call "exclusion":
viewpoint / ignore-list / character-filter / duration / kill-count / ranked
(the partial result and the `null` result) or the loop's stage-validity
check on a complete fact. -/
def isExcludedResult : ReplayResult → Prop
  | .nullResult => True
  | .excluded _ => True
  | .fact f => stageEntry f.stage_num = none

instance : (r : ReplayResult) → Decidable (isExcludedResult r)
  | .nullResult => isTrue trivial
  | .excluded _ => isTrue trivial
  | .fact f => inferInstanceAs (Decidable (stageEntry f.stage_num = none))

/-- Does one loop iteration run all the way to the match-log/progress
emission?  Mirrors the branch structure of `applyGd`. -/
def fullyProcessed (gd : GameData)
    (wantedPlayersLower wantedOpponentLower ignoredOpponentsLower : List String)
    (playerCharacterFilter opponentCharacterFilter : Option CharFilter)
    (rankedOnly : Bool) : Bool :=
  match processSingleReplay gd wantedPlayersLower wantedOpponentLower
    ignoredOpponentsLower playerCharacterFilter opponentCharacterFilter rankedOnly with
  | .fact f =>
      match stageEntry f.stage_num with
      | none => false
      | some _ =>
          if f.player_character_name = "" ∨ f.opponent_character_name = "" ∨
             f.player_character_name = "Unknown" ∨ f.opponent_character_name = "Unknown" ∨
             f.player_character_name = "undefined" ∨ f.opponent_character_name = "undefined"
          then false
          else true
  | _ => false

/-! ## General lemmas -/

theorem mem_stableInsert {α : Type} (le : α → α → Bool) (x y : α) (l : List α) :
    y ∈ stableInsert le x l ↔ y = x ∨ y ∈ l := by
  induction l with
  | nil => simp [stableInsert]
  | cons z zs ih =>
      simp only [stableInsert]
      split
      · simp [List.mem_cons]
      · simp only [List.mem_cons, ih]
        tauto

theorem mem_jsSort {α : Type} (le : α → α → Bool) (y : α) (l : List α) :
    y ∈ jsSort le l ↔ y ∈ l := by
  induction l with
  | nil => simp [jsSort]
  | cons z zs ih => simp [jsSort, mem_stableInsert, ih]

theorem jsIndexOf_eq_none_of_not_mem (l : List String) (x : String) (h : x ∉ l) :
    jsIndexOf l x = none := by
  induction l with
  | nil => rfl
  | cons y rest ih =>
      simp only [List.mem_cons, not_or] at h
      simp [jsIndexOf, Ne.symm h.1, ih h.2]

theorem countProgress_append (a b : List Event) :
    countProgress (a ++ b) = countProgress a + countProgress b := by
  simp [countProgress, List.filter_append]

/-! ## C1: excluded replays leave every aggregate unchanged -/

/-- C1.  If a replay file is excluded by any of the viewpoint, ignore-list,
character-filter, duration, kill-count, ranked or stage-validity checks, the
loop iteration leaves every aggregate unchanged — total games, total wins,
raw scanned seconds, counted seconds, the stage tables, the matchup matrix,
character playtime, the misc counters and streaks — and increments exactly
the skipped counter; it also emits no events for the file. -/
theorem excluded_file_only_bumps_skipped
    (wps wos igs : List String) (pcf ocf : Option CharFilter) (ro : Bool)
    (n i : Nat) (st : RunState) (file : ReplayFile)
    (h : isExcludedResult
      (processSingleReplay (cacheStep st.cache file).1 wps wos igs pcf ocf ro)) :
    (processFile wps wos igs pcf ocf ro n st i file).agg =
      { st.agg with skippedCount := st.agg.skippedCount + 1 } ∧
    (processFile wps wos igs pcf ocf ro n st i file).events = st.events := by
  unfold processFile applyGd
  cases hr : processSingleReplay (cacheStep st.cache file).1 wps wos igs pcf ocf ro with
  | nullResult => simp [hr]
  | excluded ts => simp [hr]
  | fact f =>
      rw [hr] at h
      simp only [isExcludedResult] at h
      simp [hr, h]

/-- Witness for C1: a ranked-only run over an unranked replay. -/
theorem excluded_file_only_bumps_skipped_witness :
    isExcludedResult (processSingleReplay
      (cacheStep (initState []).cache ⟨some "h1", exUnranked⟩).1
      ["alice"] [] [] none none true) ∧
    (processFile ["alice"] [] [] none none true 1 (initState []) 0
        ⟨some "h1", exUnranked⟩).agg =
      { (initState []).agg with skippedCount := (initState []).agg.skippedCount + 1 } ∧
    (processFile ["alice"] [] [] none none true 1 (initState []) 0
        ⟨some "h1", exUnranked⟩).events = (initState []).events :=
  ⟨by decide,
   excluded_file_only_bumps_skipped ["alice"] [] [] none none true 1 0 (initState [])
     ⟨some "h1", exUnranked⟩ (by decide)⟩

/-! ## C2: unrecognized character-filter names -/

/-- C2 counterexample.  The claim says an unrecognized character-filter name
yields a never-matching filter so the report shows zero qualifying games;
in the code `resolveCharacterFilter` returns `null` for such a name, which
downstream means "no filter", and a qualifying match is still counted. -/
theorem unknown_char_filter_still_counts_games :
    reportTotalGames
        (analyzeReplays [⟨some "h1", exGame 9 3 1 90⟩] exOptsBadChar [] none).report = 1 ∧
    reportTotalGames
        (analyzeReplays [⟨some "h1", exGame 9 3 1 90⟩] exOptsBadChar [] none).report ≠ 0 := by
  constructor
  · decide
  · decide

/-- C2 amended.  For every non-empty name not in the character table,
`resolveCharacterFilter` returns `none` — the same value as "no filter" —
and the character-filter guard therefore rejects no character id. -/
theorem resolveCharacterFilter_unknown_is_no_filter
    (s : String) (hne : s ≠ "") (hmem : strToLower s ∉ characters_lowercase) :
    resolveCharacterFilter (some s) = none ∧
    ∀ cid : Option Int, charFilterRejects (resolveCharacterFilter (some s)) cid = false := by
  have hidx : jsIndexOf characters_lowercase (strToLower s) = none :=
    jsIndexOf_eq_none_of_not_mem _ _ hmem
  constructor
  · simp [resolveCharacterFilter, hne, hidx]
  · intro cid
    simp [resolveCharacterFilter, hne, hidx, charFilterRejects]

/-- Witness for the amended C2 at the concrete name "masterchief". -/
theorem resolveCharacterFilter_unknown_is_no_filter_witness :
    ("masterchief" ≠ "") ∧
    resolveCharacterFilter (some "masterchief") = none ∧
    charFilterRejects (resolveCharacterFilter (some "masterchief")) (some 2) = false :=
  ⟨by decide,
   (resolveCharacterFilter_unknown_is_no_filter "masterchief" (by decide) (by decide)).1,
   (resolveCharacterFilter_unknown_is_no_filter "masterchief" (by decide) (by decide)).2
     (some 2)⟩

/-! ## C3: win classification -/

set_option maxHeartbeats 1000000 in
/-- C3.  For every qualifying match (one that produces a complete fact), the
self side is classified as the winner exactly when self's kill count is
strictly greater than the opponent's, or the kill counts are equal and
self's final damage percentage is strictly lower than the opponent's. -/
theorem win_classification
    (gd : GameData) (wps wos igs : List String) (pcf ocf : Option CharFilter) (ro : Bool)
    (f : PerMatchFact)
    (hf : processSingleReplay gd wps wos igs pcf ocf ro = .fact f)
    (pp po : Q)
    (hpp : gd.latestFramePercents.get? f.player_index = some pp)
    (hpo : gd.latestFramePercents.get? f.opponent_index = some po) :
    f.total_wins = 1 ↔
      (killCountAt gd.stats f.player_index > killCountAt gd.stats f.opponent_index ∨
       (killCountAt gd.stats f.player_index = killCountAt gd.stats f.opponent_index ∧
        pp < po)) := by
  simp only [processSingleReplay] at hf
  repeat' (split at hf <;> try exact ReplayResult.noConfusion hf)
  all_goals injection hf with hrec
  all_goals subst hrec
  all_goals simp only [mkMatchFact, didWinOf] at hpp hpo ⊢
  all_goals simp only [hpp, hpo, jsLt, Bool.or_eq_true, Bool.and_eq_true,
    decide_eq_true_eq]
  all_goals (split <;> rename_i hcond)
  all_goals first
    | exact iff_of_true rfl hcond
    | exact iff_of_false (by simp) hcond

/-- Witness for C3: the sample game, 3 kills to 1, is classified a win. -/
theorem win_classification_witness :
    exFact.total_wins = 1 ↔
      (killCountAt (exGame 9 3 1 90).stats exFact.player_index >
         killCountAt (exGame 9 3 1 90).stats exFact.opponent_index ∨
       (killCountAt (exGame 9 3 1 90).stats exFact.player_index =
          killCountAt (exGame 9 3 1 90).stats exFact.opponent_index ∧
        (10 : Q) < 50)) :=
  win_classification (exGame 9 3 1 90) ["alice"] [] [] none none false exFact
    (by decide) 10 50 (by decide) (by decide)

/-! ## C4: duration and kill-count validation -/

/-- C4.  For every match that reaches the duration/kill validation — i.e. one
that passes the ranked, player-presence, player-count, viewpoint, ignore-list
and character-filter checks — the match is excluded if and only if the floored
duration is under 30 seconds or both sides' kill counts are zero. -/
theorem duration_kill_validation
    (gd : GameData) (wps wos igs : List String) (pcf ocf : Option CharFilter) (ro : Bool)
    (pi oi : Nat)
    (hr : (ro && (getMatchType gd.settings.matchId != "Ranked")) = false)
    (hn : (((extractIdentity (gd.metaPlayers.getD 0 none)).displayName == "") ||
           ((extractIdentity (gd.metaPlayers.getD 1 none)).displayName == "")) = false)
    (hl : (decide (gd.metaPlayers.length < 2) ||
           decide (gd.settings.players.length < 2)) = false)
    (hv : viewpointOf (extractIdentity (gd.metaPlayers.getD 0 none))
           (extractIdentity (gd.metaPlayers.getD 1 none)) wps wos = some (pi, oi))
    (hi : isIgnoredOpponent
           (if oi = 0 then extractIdentity (gd.metaPlayers.getD 0 none)
            else extractIdentity (gd.metaPlayers.getD 1 none)) igs = false)
    (hc1 : charFilterRejects pcf (charIdAt gd.settings pi) = false)
    (hc2 : charFilterRejects ocf (charIdAt gd.settings oi) = false) :
    (processSingleReplay gd wps wos igs pcf ocf ro = .excluded gd.total_seconds ↔
      (gd.total_seconds.floor < 30 ∨
       (killCountAt gd.stats pi = 0 ∧ killCountAt gd.stats oi = 0))) := by
  simp only [processSingleReplay, hr, hn, hl, hv, hi, hc1, hc2]
  by_cases h30 : gd.total_seconds.floor < 30
  · simp [h30]
  · by_cases hk : killCountAt gd.stats pi = 0 ∧ killCountAt gd.stats oi = 0
    · simp [h30, hk]
    · simp [h30, hk, Bool.and_eq_true, beq_iff_eq]

/-- Witness for C4: a 29-second match with nonzero kills is excluded, a
30-second match with kills is not, and a 300-second match with both kill
counts zero is excluded. -/
theorem duration_kill_validation_witness :
    processSingleReplay (exGame 9 3 1 29) ["alice"] [] [] none none false =
      .excluded (29 : Q) ∧
    processSingleReplay (exGame 9 3 1 30) ["alice"] [] [] none none false ≠
      .excluded (30 : Q) ∧
    processSingleReplay (exGame 9 0 0 300) ["alice"] [] [] none none false =
      .excluded (300 : Q) := by
  refine ⟨?_, ?_, ?_⟩
  · exact (duration_kill_validation (exGame 9 3 1 29) ["alice"] [] [] none none false
      0 1 (by decide) (by decide) (by decide) (by decide) (by decide) (by decide)
      (by decide)).mpr (Or.inl (by decide))
  · intro h
    exact absurd ((duration_kill_validation (exGame 9 3 1 30) ["alice"] [] [] none none
      false 0 1 (by decide) (by decide) (by decide) (by decide) (by decide) (by decide)
      (by decide)).mp h) (by decide)
  · exact (duration_kill_validation (exGame 9 0 0 300) ["alice"] [] [] none none false
      0 1 (by decide) (by decide) (by decide) (by decide) (by decide) (by decide)
      (by decide)).mpr (Or.inr (by decide))

/-! ## C5: rate rendering -/

/-- Every rate in the report is `wins/games*100` rendered by `toFixed(2)`,
except that the zero-games report shape stores the number `0`. -/
def ratesWellFormed : Report → Prop
  | .noGames _ _ s => s.winRate = RateVal.num 0
  | .found _ _ s stagesL _ _ _ _ _ _ =>
      s.winRate = RateVal.str (toFixed2 (((s.totalWins : Q) / (s.totalGames : Q)) * 100)) ∧
      ∀ p ∈ stagesL, p.2.winrate =
        (if p.2.games ≠ 0 then toFixed2 (((p.2.wins : Q) / (p.2.games : Q)) * 100)
         else "0.00")

/-- C5 counterexample.  The claim says the win rate is the string `"0.00"`
whenever games = 0, including in the "no games found" report; the code puts
the number `0` there, not a string. -/
theorem noGames_winRate_is_numeric_zero :
    reportWinRateVal (analyzeReplays [] exOpts [] none).report = RateVal.num 0 ∧
    RateVal.num 0 ≠ RateVal.str "0.00" :=
  ⟨by decide, by decide⟩

/-- C5 amended.  In every found-games report the overall win rate and each
per-stage rate equal `wins/games*100` rendered by `toFixed(2)` (a string
with exactly two fractional digits); the no-games report's `winRate` is the
number `0`. -/
theorem rates_rendering (files : List ReplayFile) (opts : Options)
    (cache0 : List (String × GameData)) (cAt : Option Nat) :
    ratesWellFormed (analyzeReplays files opts cache0 cAt).report ∧
    ∀ q : Q, (fracPart2 (jsRound2 q)).length = 2 := by
  constructor
  · unfold analyzeReplays buildReport
    by_cases h : (runAll files opts cache0 cAt).agg.total_games = 0
    · simp only [h, if_pos rfl]
      simp [ratesWellFormed]
    · simp only [if_neg h]
      simp only [ratesWellFormed]
      constructor
      · trivial
      · intro p hp
        simp only [List.mem_map] at hp
        obtain ⟨row, hrow, rfl⟩ := hp
        rw [mem_jsSort] at hrow
        simp only [buildStageResults, List.mem_map] at hrow
        obtain ⟨entry, hentry, rfl⟩ := hrow
        rfl
  · intro q
    rfl

/-- Witness for the amended C5: 3 wins in 4 games renders as `"75.00"`. -/
theorem rates_rendering_witness :
    ratesWellFormed (analyzeReplays exFour exOpts [] none).report ∧
    reportWinRateVal (analyzeReplays exFour exOpts [] none).report =
      RateVal.str "75.00" :=
  ⟨(rates_rendering exFour exOpts [] none).1, by decide⟩

/-! ## C6: ordering of the report's matchup rows -/

/-- C6.  With three qualifying games — one Fox–Marth, then two Fox–Falco —
the report's matchup rows (the `matchups` object, in the order a consumer
iterates it) carry game counts `[1, 2]`, which is not descending: the
sorted `matchup_results` list the claim describes is computed but discarded
by `matchups: matchups || matchup_results`. -/
theorem report_matchups_not_sorted :
    reportTotalGames (analyzeReplays exThree exOpts [] none).report = 3 ∧
    matchupGamesSeq (reportMatchupsVal (analyzeReplays exThree exOpts [] none).report) =
      [1, 2] ∧
    sortedDescBool (matchupGamesSeq (reportMatchupsVal
      (analyzeReplays exThree exOpts [] none).report)) = false :=
  ⟨by decide, by decide, by decide⟩

/-! ## C7: progress events -/

/-- C7 counterexample.  A one-file ranked-only run over an unranked replay
emits no events at all, although the claim requires one
`{processed: 1, total: 1}` progress event after the file. -/
theorem skipped_file_emits_no_progress :
    (analyzeReplays [⟨some "h1", exUnranked⟩] exOptsRanked [] none).events = [] ∧
    ([] : List Event) ≠ [Event.progress 1 1] :=
  ⟨by decide, by decide⟩

/-- C7 amended.  An iteration emits exactly one progress event
`{processed: i+1, total: n}` (preceded by the match-log event) when the file
is fully processed into the aggregates, and no event at all when the file is
skipped or excluded — the `continue` paths bypass the emission. -/
theorem progress_only_for_fully_processed
    (wps wos igs : List String) (pcf ocf : Option CharFilter) (ro : Bool)
    (n : Nat) (st : RunState) (i : Nat) (file : ReplayFile) :
    countProgress (processFile wps wos igs pcf ocf ro n st i file).events =
      countProgress st.events +
        (if fullyProcessed (cacheStep st.cache file).1 wps wos igs pcf ocf ro
         then 1 else 0) ∧
    ((processFile wps wos igs pcf ocf ro n st i file).events = st.events ∨
     ∃ a b c w, (processFile wps wos igs pcf ocf ro n st i file).events =
       st.events ++ [Event.matchLog a b c w, Event.progress (i + 1) n]) := by
  unfold processFile applyGd fullyProcessed
  cases hr : processSingleReplay (cacheStep st.cache file).1 wps wos igs pcf ocf ro with
  | nullResult => simp [hr, countProgress]
  | excluded ts => simp [hr, countProgress]
  | fact f =>
      cases hs : stageEntry f.stage_num with
      | none => simp [hr, hs, countProgress]
      | some stageName =>
          by_cases hu : f.player_character_name = "" ∨ f.opponent_character_name = "" ∨
             f.player_character_name = "Unknown" ∨ f.opponent_character_name = "Unknown" ∨
             f.player_character_name = "undefined" ∨ f.opponent_character_name = "undefined"
          · simp [hr, hs, hu, countProgress]
          · constructor
            · simp [hr, hs, hu, countProgress_append, countProgress]
            · right
              exact ⟨jsOrS (jsOrS f.player_name f.player_code) "P1",
                jsOrS (jsOrS f.opponent_name f.opponent_code) "P2",
                (stageEntry f.stage_num).getD "Unknown",
                decide (f.total_wins > 0), by simp [hr, hs, hu]⟩

/-! ## Cache lemmas for C8 and C9 -/

/-- The cache after the hash/decode steps of a list of files. -/
def foldCache : List (String × GameData) → List ReplayFile → List (String × GameData)
  | c, [] => c
  | c, f :: rest => foldCache (cacheStep c f).2.1 rest

theorem lookupCache_insertCache (c : List (String × GameData)) (kh h : String)
    (g : GameData) :
    lookupCache (insertCache c kh g) h =
      match lookupCache c h with
      | some v => some v
      | none => if kh = h then some g else none := by
  induction c with
  | nil => by_cases hx : kh = h <;> simp [lookupCache, insertCache, List.find?, hx]
  | cons p rest ih =>
      by_cases hp : p.1 = h
      · simp [lookupCache, insertCache, List.find?, hp]
      · simp only [lookupCache, insertCache, List.cons_append, List.find?] at ih ⊢
        simp [hp] at ih ⊢
        exact ih

theorem cacheStep_preserves (c : List (String × GameData)) (file : ReplayFile)
    (h : String) (v : GameData) (hv : lookupCache c h = some v) :
    lookupCache (cacheStep c file).2.1 h = some v := by
  unfold cacheStep
  cases hh : file.hash with
  | none => simpa using hv
  | some kh =>
      cases hk : lookupCache c kh with
      | some gd => simp only [hk]; simpa using hv
      | none =>
          simp only [hk]
          rw [lookupCache_insertCache, hv]

theorem cacheStep_self (c : List (String × GameData)) (file : ReplayFile)
    (h : String) (hh : file.hash = some h) :
    lookupCache (cacheStep c file).2.1 h = some (cacheStep c file).1 := by
  unfold cacheStep
  rw [hh]
  cases hk : lookupCache c h with
  | some gd => simp only [hk]
  | none =>
      simp only [hk]
      rw [lookupCache_insertCache, hk]
      simp

theorem foldCache_preserves (files : List ReplayFile) :
    ∀ (c : List (String × GameData)) (h : String) (v : GameData),
      lookupCache c h = some v → lookupCache (foldCache c files) h = some v := by
  induction files with
  | nil => intro c h v hv; simpa [foldCache] using hv
  | cons f rest ih =>
      intro c h v hv
      exact ih _ _ _ (cacheStep_preserves c f h v hv)

theorem cacheStep_isSome_inv (c : List (String × GameData)) (file : ReplayFile)
    (h : String) (hs : (lookupCache (cacheStep c file).2.1 h).isSome = true) :
    (lookupCache c h).isSome = true ∨ file.hash = some h := by
  unfold cacheStep at hs
  cases hh : file.hash with
  | none => rw [hh] at hs; exact Or.inl hs
  | some kh =>
      rw [hh] at hs
      cases hk : lookupCache c kh with
      | some gd => simp only [hk] at hs; exact Or.inl hs
      | none =>
          simp only [hk] at hs
          rw [lookupCache_insertCache] at hs
          cases hx : lookupCache c h with
          | some v => exact Or.inl (by simp [hx])
          | none =>
              rw [hx] at hs
              by_cases hkh : kh = h
              · exact Or.inr (by rw [hkh])
              · simp [hkh] at hs

/-- A hash is present in the final cache exactly when it was present
initially or some processed file bears it. -/
theorem foldCache_isSome (files : List ReplayFile) :
    ∀ (c : List (String × GameData)) (h : String),
      (lookupCache (foldCache c files) h).isSome = true ↔
        ((lookupCache c h).isSome = true ∨ ∃ f ∈ files, f.hash = some h) := by
  induction files with
  | nil => intro c h; simp [foldCache]
  | cons f rest ih =>
      intro c h
      constructor
      · intro hs
        rcases (ih _ h).mp hs with hc | ⟨g, hg, hgh⟩
        · rcases cacheStep_isSome_inv c f h hc with hcc | hfh
          · exact Or.inl hcc
          · exact Or.inr ⟨f, List.mem_cons_self f rest, hfh⟩
        · exact Or.inr ⟨g, List.mem_cons_of_mem f hg, hgh⟩
      · intro hs
        rcases hs with hc | ⟨g, hg, hgh⟩
        · apply (ih _ h).mpr
          left
          obtain ⟨v, hv⟩ := Option.isSome_iff_exists.mp hc
          rw [cacheStep_preserves c f h v hv]
          rfl
        · rcases List.mem_cons.mp hg with rfl | hg'
          · apply (ih _ h).mpr
            left
            rw [cacheStep_self c g h hgh]
            rfl
          · exact (ih _ h).mpr (Or.inr ⟨g, hg', hgh⟩)

theorem runLoop_cache_none
    (wps wos igs : List String) (pcf ocf : Option CharFilter) (ro : Bool) (n : Nat)
    (files : List ReplayFile) :
    ∀ (st : RunState) (i : Nat),
      (runLoop wps wos igs pcf ocf ro n st i files none).cache =
        foldCache st.cache files := by
  induction files with
  | nil => intro st i; rfl
  | cons f rest ih =>
      intro st i
      show (runLoop wps wos igs pcf ocf ro n
        (processFile wps wos igs pcf ocf ro n st i f) (i + 1) rest none).cache = _
      rw [ih]
      rfl

theorem cacheStep_hit (C : List (String × GameData)) (file : ReplayFile) (kh : String)
    (gd : GameData) (hkh : file.hash = some kh) (hfind : lookupCache C kh = some gd) :
    cacheStep C file = (gd, C, 0, 0) := by
  simp only [cacheStep, hkh, hfind]

/-- Running the loop again over the same files starting from the final cache
performs only cache hits: the aggregates and events evolve identically, the
cache is unchanged, and no decode or cache insertion happens. -/
theorem runLoop_rerun
    (wps wos igs : List String) (pcf ocf : Option CharFilter) (ro : Bool) (n : Nat)
    (files : List ReplayFile) :
    ∀ (c : List (String × GameData)) (a : AggState)
      (e : List Event) (n1 n2 d1 d2 i : Nat),
      (∀ f ∈ files, f.hash.isSome = true) →
      runLoop wps wos igs pcf ocf ro n ⟨a, foldCache c files, e, n2, d2⟩ i files none =
        { agg := (runLoop wps wos igs pcf ocf ro n ⟨a, c, e, n1, d1⟩ i files none).agg,
          cache := foldCache c files,
          events := (runLoop wps wos igs pcf ocf ro n ⟨a, c, e, n1, d1⟩ i files none).events,
          new_replays := n2,
          decodeCalls := d2 } := by
  induction files with
  | nil => intro c a e n1 n2 d1 d2 i hh; rfl
  | cons f rest ih =>
      intro c a e n1 n2 d1 d2 i hh
      obtain ⟨kh, hkh⟩ := Option.isSome_iff_exists.mp (hh f (List.mem_cons_self f rest))
      have hfind : lookupCache (foldCache (cacheStep c f).2.1 rest) kh =
          some (cacheStep c f).1 :=
        foldCache_preserves rest _ _ _ (cacheStep_self c f kh hkh)
      have hstep : cacheStep (foldCache c (f :: rest)) f =
          ((cacheStep c f).1, foldCache c (f :: rest), 0, 0) :=
        cacheStep_hit (foldCache c (f :: rest)) f kh (cacheStep c f).1 hkh hfind
      have hrest : ∀ g ∈ rest, g.hash.isSome = true :=
        fun g hg => hh g (List.mem_cons_of_mem f hg)
      show runLoop wps wos igs pcf ocf ro n
          (processFile wps wos igs pcf ocf ro n ⟨a, foldCache c (f :: rest), e, n2, d2⟩ i f)
          (i + 1) rest none = _
      have hpfL : processFile wps wos igs pcf ocf ro n
          ⟨a, foldCache c (f :: rest), e, n2, d2⟩ i f =
          ⟨(applyGd wps wos igs pcf ocf ro n i a (cacheStep c f).1).1,
           foldCache c (f :: rest),
           e ++ (applyGd wps wos igs pcf ocf ro n i a (cacheStep c f).1).2,
           n2, d2⟩ := by
        simp [processFile, hstep]
      rw [hpfL]
      exact ih (cacheStep c f).2.1
        (applyGd wps wos igs pcf ocf ro n i a (cacheStep c f).1).1
        (e ++ (applyGd wps wos igs pcf ocf ro n i a (cacheStep c f).1).2)
        (n1 + (cacheStep c f).2.2.2) n2 (d1 + (cacheStep c f).2.2.1) d2 (i + 1) hrest

/-! ## C8: re-running on an unchanged folder -/

/-- Zero out the new-replays counter of either report shape (the only field
the second run changes). -/
def stripNewReplays : Report → Report
  | .noGames m fl s => .noGames m fl { s with new_replays := 0 }
  | .found fl idt s stg ni co op cp m ms =>
      .found fl idt { s with newReplaysCached := 0 } stg ni co op cp m ms

theorem buildReport_stripNew (agg : AggState) (nr nr' n : Nat)
    (pt ot ig : List String) (pc oc : Option String) :
    stripNewReplays (buildReport agg nr n pt ot ig pc oc) =
      stripNewReplays (buildReport agg nr' n pt ot ig pc oc) := by
  unfold buildReport
  by_cases h : agg.total_games = 0 <;> simp [h, stripNewReplays]

/-- C8 counterexample.  Re-running on an unchanged one-file folder performs
zero decode calls, but the report is not byte-identical: the first run
reports `newReplaysCached = 1`, the second `0`. -/
theorem rerun_report_not_identical :
    (analyzeReplays [⟨some "h1", exGame 9 3 1 90⟩] exOpts
        (analyzeReplays [⟨some "h1", exGame 9 3 1 90⟩] exOpts [] none).cacheDoc.results
        none).decodeCalls = 0 ∧
    (analyzeReplays [⟨some "h1", exGame 9 3 1 90⟩] exOpts
        (analyzeReplays [⟨some "h1", exGame 9 3 1 90⟩] exOpts [] none).cacheDoc.results
        none).report ≠
      (analyzeReplays [⟨some "h1", exGame 9 3 1 90⟩] exOpts [] none).report :=
  ⟨by decide, by decide⟩

/-- C8 amended.  Re-running `analyzeReplays` on an unchanged folder (same
files, every file hashable) performs zero decode calls and produces the same
events and the same report except for the new-replays-cached counter, which
is 0 on the second run; the persisted cache document is identical. -/
theorem rerun_zero_decodes_same_report
    (files : List ReplayFile) (opts : Options) (cache0 : List (String × GameData))
    (hh : ∀ f ∈ files, f.hash.isSome = true) :
    (analyzeReplays files opts (analyzeReplays files opts cache0 none).cacheDoc.results
        none).decodeCalls = 0 ∧
    stripNewReplays (analyzeReplays files opts
        (analyzeReplays files opts cache0 none).cacheDoc.results none).report =
      stripNewReplays (analyzeReplays files opts cache0 none).report ∧
    (analyzeReplays files opts (analyzeReplays files opts cache0 none).cacheDoc.results
        none).events = (analyzeReplays files opts cache0 none).events ∧
    (analyzeReplays files opts (analyzeReplays files opts cache0 none).cacheDoc.results
        none).cacheDoc = (analyzeReplays files opts cache0 none).cacheDoc := by
  have hcache1 : (runAll files opts cache0 none).cache = foldCache cache0 files :=
    runLoop_cache_none _ _ _ _ _ _ _ _ (initState cache0) 0
  have hsim := runLoop_rerun (normalizeTags opts.playerTags)
    (normalizeTags opts.opponentTags) (normalizeTags opts.ignoredOpponents)
    (resolveCharacterFilter opts.playerCharacter)
    (resolveCharacterFilter opts.opponentCharacter) opts.rankedOnly
    files.length files cache0 initAgg [] 0 0 0 0 0 hh
  have hrun2 : runAll files opts ((runAll files opts cache0 none).cache) none =
      { agg := (runAll files opts cache0 none).agg,
        cache := foldCache cache0 files,
        events := (runAll files opts cache0 none).events,
        new_replays := 0, decodeCalls := 0 } := by
    rw [hcache1]
    exact hsim
  simp only [analyzeReplays]
  rw [hrun2]
  refine ⟨rfl, ?_, rfl, ?_⟩
  · exact buildReport_stripNew _ _ _ _ _ _ _ _ _
  · simp [hcache1]

/-- Witness for the amended C8 on a concrete one-file folder. -/
theorem rerun_zero_decodes_same_report_witness :
    (∀ f ∈ [(⟨some "h1", exGame 9 3 1 90⟩ : ReplayFile)], f.hash.isSome = true) ∧
    (analyzeReplays [⟨some "h1", exGame 9 3 1 90⟩] exOpts
        (analyzeReplays [⟨some "h1", exGame 9 3 1 90⟩] exOpts [] none).cacheDoc.results
        none).decodeCalls = 0 ∧
    stripNewReplays (analyzeReplays [⟨some "h1", exGame 9 3 1 90⟩] exOpts
        (analyzeReplays [⟨some "h1", exGame 9 3 1 90⟩] exOpts [] none).cacheDoc.results
        none).report =
      stripNewReplays (analyzeReplays [⟨some "h1", exGame 9 3 1 90⟩] exOpts [] none).report :=
  ⟨by decide,
   (rerun_zero_decodes_same_report [⟨some "h1", exGame 9 3 1 90⟩] exOpts [] (by decide)).1,
   (rerun_zero_decodes_same_report [⟨some "h1", exGame 9 3 1 90⟩] exOpts []
     (by decide)).2.1⟩

/-! ## C9: cancellation -/

/-- Observing the cancellation flag before iteration `k` truncates the run to
the first `k` files and appends one cancellation event. -/
theorem runLoop_cancelled
    (wps wos igs : List String) (pcf ocf : Option CharFilter) (ro : Bool) (n : Nat)
    (files : List ReplayFile) :
    ∀ (st : RunState) (i k : Nat), i ≤ k → k - i < files.length →
      runLoop wps wos igs pcf ocf ro n st i files (some k) =
        { runLoop wps wos igs pcf ocf ro n st i (files.take (k - i)) none with
          events := (runLoop wps wos igs pcf ocf ro n st i (files.take (k - i)) none).events
            ++ [Event.cancelledEv] } := by
  induction files with
  | nil => intro st i k hik hlen; exact absurd hlen (Nat.not_lt_zero _)
  | cons f rest ih =>
      intro st i k hik hlen
      by_cases hki : k ≤ i
      · have hk : k = i := Nat.le_antisymm hki hik
        subst hk
        simp [runLoop, cancelObserved, Nat.sub_self]
      · have hik1 : i + 1 ≤ k := Nat.succ_le_of_lt (Nat.lt_of_not_le hki)
        have hsub : k - i = (k - (i + 1)) + 1 := by omega
        have hlen' : k - (i + 1) < rest.length := by
          simp only [List.length_cons] at hlen
          omega
        have hco : (decide (k ≤ i)) = false := by
          simp only [decide_eq_false_iff_not]
          omega
        rw [hsub]
        simp only [List.take_succ_cons]
        simp only [runLoop, hco, cancelObserved, Bool.false_eq_true, if_false]
        exact ih (processFile wps wos igs pcf ocf ro n st i f) (i + 1) k hik1 hlen'



/-- Zero out `totalReplaysScanned` (the only report field that records the
full file count rather than the processed prefix). -/
def stripScanned : Report → Report
  | .noGames m fl s => .noGames m fl s
  | .found fl idt s stg ni co op cp m ms =>
      .found fl idt { s with totalReplaysScanned := 0 } stg ni co op cp m ms

theorem buildReport_stripScanned (agg : AggState) (nr n n' : Nat)
    (pt ot ig : List String) (pc oc : Option String) :
    stripScanned (buildReport agg nr n pt ot ig pc oc) =
      stripScanned (buildReport agg nr n' pt ot ig pc oc) := by
  unfold buildReport
  by_cases h : agg.total_games = 0 <;> simp [h, stripScanned]

/-- Number of cancellation events in an event list. -/
def countCancelled (l : List Event) : Nat :=
  (l.filter (fun e => match e with | .cancelledEv => true | _ => false)).length

theorem countCancelled_append (a b : List Event) :
    countCancelled (a ++ b) = countCancelled a + countCancelled b := by
  simp [countCancelled, List.filter_append]

theorem processFile_no_cancelled
    (wps wos igs : List String) (pcf ocf : Option CharFilter) (ro : Bool)
    (n : Nat) (st : RunState) (i : Nat) (file : ReplayFile) :
    countCancelled (processFile wps wos igs pcf ocf ro n st i file).events =
      countCancelled st.events := by
  unfold processFile applyGd
  cases hr : processSingleReplay (cacheStep st.cache file).1 wps wos igs pcf ocf ro with
  | nullResult => simp [hr]
  | excluded ts => simp [hr]
  | fact f =>
      cases hs : stageEntry f.stage_num with
      | none => simp [hr, hs]
      | some stageName =>
          by_cases hu : f.player_character_name = "" ∨ f.opponent_character_name = "" ∨
             f.player_character_name = "Unknown" ∨ f.opponent_character_name = "Unknown" ∨
             f.player_character_name = "undefined" ∨ f.opponent_character_name = "undefined"
          · simp [hr, hs, hu]
          · simp [hr, hs, hu, countCancelled_append, countCancelled]

theorem runLoop_none_no_cancelled
    (wps wos igs : List String) (pcf ocf : Option CharFilter) (ro : Bool) (n : Nat)
    (files : List ReplayFile) :
    ∀ (st : RunState) (i : Nat),
      countCancelled (runLoop wps wos igs pcf ocf ro n st i files none).events =
        countCancelled st.events := by
  induction files with
  | nil => intro st i; rfl
  | cons f rest ih =>
      intro st i
      show countCancelled (runLoop wps wos igs pcf ocf ro n
        (processFile wps wos igs pcf ocf ro n st i f) (i + 1) rest none).events = _
      rw [ih, processFile_no_cancelled]

theorem applyGd_fst_ignores_n
    (wps wos igs : List String) (pcf ocf : Option CharFilter) (ro : Bool)
    (n n' i : Nat) (a : AggState) (gd : GameData) :
    (applyGd wps wos igs pcf ocf ro n i a gd).1 =
      (applyGd wps wos igs pcf ocf ro n' i a gd).1 := by
  unfold applyGd
  cases hr : processSingleReplay gd wps wos igs pcf ocf ro with
  | nullResult => simp [hr]
  | excluded ts => simp [hr]
  | fact f =>
      cases hs : stageEntry f.stage_num with
      | none => simp [hr, hs]
      | some stageName =>
          by_cases hu : f.player_character_name = "" ∨ f.opponent_character_name = "" ∨
             f.player_character_name = "Unknown" ∨ f.opponent_character_name = "Unknown" ∨
             f.player_character_name = "undefined" ∨ f.opponent_character_name = "undefined"
          · simp [hr, hs, hu]
          · simp [hr, hs, hu]

theorem runLoop_core_ignores_n
    (wps wos igs : List String) (pcf ocf : Option CharFilter) (ro : Bool)
    (files : List ReplayFile) :
    ∀ (n n' : Nat) (st1 st2 : RunState) (i : Nat) (cAt : Option Nat),
      st1.agg = st2.agg → st1.cache = st2.cache →
      st1.new_replays = st2.new_replays → st1.decodeCalls = st2.decodeCalls →
      ((runLoop wps wos igs pcf ocf ro n st1 i files cAt).agg =
         (runLoop wps wos igs pcf ocf ro n' st2 i files cAt).agg ∧
       (runLoop wps wos igs pcf ocf ro n st1 i files cAt).cache =
         (runLoop wps wos igs pcf ocf ro n' st2 i files cAt).cache ∧
       (runLoop wps wos igs pcf ocf ro n st1 i files cAt).new_replays =
         (runLoop wps wos igs pcf ocf ro n' st2 i files cAt).new_replays ∧
       (runLoop wps wos igs pcf ocf ro n st1 i files cAt).decodeCalls =
         (runLoop wps wos igs pcf ocf ro n' st2 i files cAt).decodeCalls) := by
  induction files with
  | nil =>
      intro n n' st1 st2 i cAt h1 h2 h3 h4
      exact ⟨h1, h2, h3, h4⟩
  | cons f rest ih =>
      intro n n' st1 st2 i cAt h1 h2 h3 h4
      by_cases hc : cancelObserved cAt i = true
      · simp only [runLoop, hc, if_true]
        exact ⟨h1, h2, h3, h4⟩
      · simp only [runLoop, hc, Bool.false_eq_true, if_false]
        apply ih
        · simp only [processFile, h1, h2, h3]
          rw [applyGd_fst_ignores_n wps wos igs pcf ocf ro n n' i st2.agg]
        · simp only [processFile, h2]
        · simp only [processFile, h2, h3]
        · simp only [processFile, h2, h4]



/-- C9.  If cancellation is observed after `k` of `n` files (k < n), the run
emits exactly one cancellation event as its final event, returns a report
equal (up to the total-scanned count) to the report of an uncancelled run
over the first `k` files, persists the identical cache document, and that
cache contains entries exactly for the previously cached hashes plus the
hashes of the first `k` files. -/
theorem cancellation_partial_run
    (files : List ReplayFile) (opts : Options) (cache0 : List (String × GameData))
    (k : Nat) (hk : k < files.length) :
    (∃ evs, (analyzeReplays files opts cache0 (some k)).events =
        evs ++ [Event.cancelledEv] ∧ countCancelled evs = 0) ∧
    stripScanned (analyzeReplays files opts cache0 (some k)).report =
      stripScanned (analyzeReplays (files.take k) opts cache0 none).report ∧
    (analyzeReplays files opts cache0 (some k)).cacheDoc =
      (analyzeReplays (files.take k) opts cache0 none).cacheDoc ∧
    ∀ h : String,
      (lookupCache (analyzeReplays files opts cache0 (some k)).cacheDoc.results h).isSome
          = true ↔
        ((lookupCache cache0 h).isSome = true ∨ ∃ f ∈ files.take k, f.hash = some h) := by
  have hsplit := runLoop_cancelled (normalizeTags opts.playerTags)
    (normalizeTags opts.opponentTags) (normalizeTags opts.ignoredOpponents)
    (resolveCharacterFilter opts.playerCharacter)
    (resolveCharacterFilter opts.opponentCharacter) opts.rankedOnly
    files.length files (initState cache0) 0 k (Nat.zero_le k) (by simpa using hk)
  rw [Nat.sub_zero] at hsplit
  have hcore := runLoop_core_ignores_n (normalizeTags opts.playerTags)
    (normalizeTags opts.opponentTags) (normalizeTags opts.ignoredOpponents)
    (resolveCharacterFilter opts.playerCharacter)
    (resolveCharacterFilter opts.opponentCharacter) opts.rankedOnly
    (files.take k) files.length (files.take k).length
    (initState cache0) (initState cache0) 0 none rfl rfl rfl rfl
  have hLcache := runLoop_cache_none (normalizeTags opts.playerTags)
    (normalizeTags opts.opponentTags) (normalizeTags opts.ignoredOpponents)
    (resolveCharacterFilter opts.playerCharacter)
    (resolveCharacterFilter opts.opponentCharacter) opts.rankedOnly
    files.length (files.take k) (initState cache0) 0
  have hLcancel := runLoop_none_no_cancelled (normalizeTags opts.playerTags)
    (normalizeTags opts.opponentTags) (normalizeTags opts.ignoredOpponents)
    (resolveCharacterFilter opts.playerCharacter)
    (resolveCharacterFilter opts.opponentCharacter) opts.rankedOnly
    files.length (files.take k) (initState cache0) 0
  simp only [analyzeReplays, runAll]
  rw [hsplit]
  refine ⟨⟨_, rfl, hLcancel⟩, ?_, ?_, ?_⟩
  · rw [hcore.1, hcore.2.2.1]
    exact buildReport_stripScanned _ _ _ _ _ _ _ _ _
  · simp only [CacheDoc.mk.injEq]
    exact ⟨trivial, trivial, trivial, hcore.2.1⟩
  · intro h
    simp only [hLcache]
    exact foldCache_isSome (files.take k) cache0 h

/-- Witness for C9 at a concrete three-file folder cancelled before file 2. -/
theorem cancellation_partial_run_witness :
    (1 < exThree.length) ∧
    stripScanned (analyzeReplays exThree exOpts [] (some 1)).report =
      stripScanned (analyzeReplays (exThree.take 1) exOpts [] none).report :=
  ⟨by decide, (cancellation_partial_run exThree exOpts [] 1 (by decide)).2.1⟩

end SlippiStats

namespace SlippiStats

theorem fact_shape
    (gd : GameData) (wps wos igs : List String) (pcf ocf : Option CharFilter) (ro : Bool)
    (f : PerMatchFact)
    (hf : processSingleReplay gd wps wos igs pcf ocf ro = .fact f) :
    f.total_games = 1 ∧ f.total_wins ≤ 1 := by
  simp only [processSingleReplay] at hf
  repeat' (split at hf <;> try exact ReplayResult.noConfusion hf)
  all_goals injection hf with hrec
  all_goals subst hrec
  all_goals refine ⟨rfl, ?_⟩
  all_goals simp only [mkMatchFact]
  all_goals split <;> simp

def keysDistinct {α : Type} (m : List (String × α)) : Prop :=
  m.Pairwise (fun p q => p.1 ≠ q.1)

theorem lookupAssoc_bumpAssoc {α : Type} [Zero α] [Add α]
    (m : List (String × α)) (k k' : String) (d : α) :
    lookupAssoc (bumpAssoc m k d) k' =
      if k = k' then some ((lookupAssoc m k).getD 0 + d) else lookupAssoc m k' := by
  induction m with
  | nil =>
      by_cases h : k = k' <;> simp [bumpAssoc, lookupAssoc, h]
  | cons p rest ih =>
      obtain ⟨a, v⟩ := p
      by_cases hak : a = k
      · subst hak
        by_cases hk' : a = k' <;> simp [bumpAssoc, lookupAssoc, hk']
      · by_cases hk' : a = k'
        · subst hk'
          have hkk : ¬ k = a := fun hc => hak hc.symm
          simp [bumpAssoc, lookupAssoc, hak, hkk]
        · simp [bumpAssoc, lookupAssoc, hak, hk', ih]

theorem bumpAssoc_key_mem {α : Type} [Zero α] [Add α]
    (m : List (String × α)) (k : String) (d : α) :
    ∀ p ∈ bumpAssoc m k d, p.1 = k ∨ ∃ q ∈ m, p.1 = q.1 := by
  induction m with
  | nil =>
      intro p hp
      simp [bumpAssoc] at hp
      exact Or.inl (by rw [hp])
  | cons q rest ih =>
      intro p hp
      simp only [bumpAssoc] at hp
      split at hp
      · rcases List.mem_cons.mp hp with rfl | hmem
        · exact Or.inr ⟨q, List.mem_cons_self q rest, rfl⟩
        · exact Or.inr ⟨p, List.mem_cons_of_mem q hmem, rfl⟩
      · rcases List.mem_cons.mp hp with rfl | hmem
        · exact Or.inr ⟨q, List.mem_cons_self q rest, rfl⟩
        · rcases ih p hmem with h | ⟨r, hr, hpr⟩
          · exact Or.inl h
          · exact Or.inr ⟨r, List.mem_cons_of_mem q hr, hpr⟩

theorem bumpAssoc_keysDistinct {α : Type} [Zero α] [Add α]
    (m : List (String × α)) (k : String) (d : α)
    (h : keysDistinct m) : keysDistinct (bumpAssoc m k d) := by
  induction m with
  | nil => simp [bumpAssoc, keysDistinct]
  | cons q rest ih =>
      have hq := (List.pairwise_cons.mp h).1
      have hrest := (List.pairwise_cons.mp h).2
      simp only [bumpAssoc]
      split
      · exact List.pairwise_cons.mpr ⟨hq, hrest⟩
      · rename_i hqk
        refine List.pairwise_cons.mpr ⟨?_, ih hrest⟩
        intro p hp
        rcases bumpAssoc_key_mem rest k d p hp with h1 | ⟨r, hr, hpr⟩
        · rw [h1]; exact fun hc => hqk hc
        · rw [hpr]; exact hq r hr

theorem lookupAssoc_of_mem_distinct {α : Type}
    (m : List (String × α)) (h : keysDistinct m) :
    ∀ p ∈ m, lookupAssoc m p.1 = some p.2 := by
  induction m with
  | nil => intro p hp; simp at hp
  | cons q rest ih =>
      intro p hp
      have hq := (List.pairwise_cons.mp h).1
      have hrest := (List.pairwise_cons.mp h).2
      rcases List.mem_cons.mp hp with rfl | hmem
      · simp [lookupAssoc]
      · simp only [lookupAssoc]
        rw [if_neg (hq p hmem)]
        exact ih hrest p hmem

/-- The invariant-relevant accumulator fields agree. -/
def coreEq (b a : AggState) : Prop :=
  b.total_games = a.total_games ∧ b.total_wins = a.total_wins ∧
  b.stage_totals = a.stage_totals ∧ b.stage_wins = a.stage_wins ∧
  b.matchups = a.matchups

theorem coreEq_trans {c b a : AggState} (h1 : coreEq b a) (h2 : coreEq c b) :
    coreEq c a :=
  ⟨h2.1.trans h1.1, h2.2.1.trans h1.2.1, h2.2.2.1.trans h1.2.2.1,
   h2.2.2.2.1.trans h1.2.2.2.1, h2.2.2.2.2.trans h1.2.2.2.2⟩

theorem lCancelUpd_coreEq (a : AggState) (x : Option ActionCounts) :
    coreEq (lCancelUpd a x) a := by
  unfold lCancelUpd
  cases x.bind (fun a => a.lCancelCount) <;>
    exact ⟨rfl, rfl, rfl, rfl, rfl⟩

theorem wavedashUpd_coreEq (a : AggState) (x : Option ActionCounts) :
    coreEq (wavedashUpd a x) a := by
  unfold wavedashUpd
  cases x.bind (fun a => a.wavedashCount) <;>
    exact ⟨rfl, rfl, rfl, rfl, rfl⟩

theorem rollUpd_coreEq (a : AggState) (x : Option ActionCounts) :
    coreEq (rollUpd a x) a := by
  unfold rollUpd
  cases x.bind (fun a => a.rollCount) <;>
    exact ⟨rfl, rfl, rfl, rfl, rfl⟩

theorem ledgegrabUpd_coreEq (a : AggState) (x : Option ActionCounts) :
    coreEq (ledgegrabUpd a x) a := by
  unfold ledgegrabUpd
  cases x.bind (fun a => a.ledgegrabCount) <;>
    exact ⟨rfl, rfl, rfl, rfl, rfl⟩

theorem dashDanceUpd_coreEq (a : AggState) (x : Option ActionCounts) :
    coreEq (dashDanceUpd a x) a := by
  unfold dashDanceUpd
  cases x.bind (fun a => a.dashDanceCount) <;>
    exact ⟨rfl, rfl, rfl, rfl, rfl⟩

theorem groundTechUpd_coreEq (a : AggState) (x : Option ActionCounts) :
    coreEq (groundTechUpd a x) a := by
  unfold groundTechUpd
  cases x.bind (fun a => a.groundTechCount) <;>
    exact ⟨rfl, rfl, rfl, rfl, rfl⟩

theorem stocksUpd_coreEq (a : AggState) (stats : GameStats) (pI oI : Nat) :
    coreEq (stocksUpd a stats pI oI) a :=
  ⟨rfl, rfl, rfl, rfl, rfl⟩

theorem throwsUpd_coreEq (a : AggState) (x : Option ActionCounts) :
    coreEq (throwsUpd a x) a := by
  unfold throwsUpd
  cases x.bind (fun a => a.throwCount) <;>
    exact ⟨rfl, rfl, rfl, rfl, rfl⟩

theorem streakUpd_coreEq (a : AggState) (w : Nat) :
    coreEq (streakUpd a w) a := by
  unfold streakUpd
  split
  · exact ⟨rfl, rfl, rfl, rfl, rfl⟩
  · exact ⟨rfl, rfl, rfl, rfl, rfl⟩

theorem miscUpdate_coreEq (a : AggState) (gd : GameData) (f : PerMatchFact) :
    coreEq (miscUpdate a gd f) a := by
  unfold miscUpdate
  exact coreEq_trans (coreEq_trans (coreEq_trans (coreEq_trans (coreEq_trans
    (coreEq_trans (coreEq_trans (coreEq_trans (lCancelUpd_coreEq _ _)
      (wavedashUpd_coreEq _ _)) (rollUpd_coreEq _ _)) (ledgegrabUpd_coreEq _ _))
      (dashDanceUpd_coreEq _ _)) (groundTechUpd_coreEq _ _)) (stocksUpd_coreEq _ _ _ _))
      (throwsUpd_coreEq _ _)) (streakUpd_coreEq _ _)

end SlippiStats

namespace SlippiStats

theorem lookupAssoc_some_mem {α : Type} (m : List (String × α)) (k : String) (v : α)
    (h : lookupAssoc m k = some v) : ∃ p ∈ m, p.2 = v := by
  induction m with
  | nil => simp [lookupAssoc] at h
  | cons q rest ih =>
      simp only [lookupAssoc] at h
      split at h
      · exact ⟨q, List.mem_cons_self q rest, by injection h⟩
      · obtain ⟨p, hp, hpv⟩ := ih h
        exact ⟨p, List.mem_cons_of_mem q hp, hpv⟩

/-- Every cell of a matchups table has `wins ≤ games`. -/
def matchupsCellsOK (m : List (String × List (String × MatchupCell))) : Prop :=
  ∀ pr ∈ m, ∀ q ∈ pr.2, q.2.wins ≤ q.2.games

theorem bumpMatchupInner_cells (inner : List (String × MatchupCell)) (oc : String)
    (won : Bool) (gs : Int) (hi : ∀ q ∈ inner, q.2.wins ≤ q.2.games) :
    ∀ q ∈ bumpMatchupInner inner oc won gs, q.2.wins ≤ q.2.games := by
  have hcell : ((lookupAssoc inner oc).getD ⟨0, 0, 0⟩).wins ≤
      ((lookupAssoc inner oc).getD ⟨0, 0, 0⟩).games := by
    cases hl : lookupAssoc inner oc with
    | none => exact Nat.le_refl 0
    | some v =>
        obtain ⟨p, hp, hpv⟩ := lookupAssoc_some_mem inner oc v hl
        have hw := hi p hp
        rw [hpv] at hw
        simpa using hw
  intro q hq
  simp only [bumpMatchupInner] at hq
  split at hq
  · rcases List.mem_map.mp hq with ⟨p, hp, hpq⟩
    by_cases hpc : p.1 = oc
    · rw [if_pos hpc] at hpq
      subst hpq
      simp only
      split <;> omega
    · rw [if_neg hpc] at hpq
      subst hpq
      exact hi p hp
  · rcases List.mem_append.mp hq with h | h
    · exact hi q h
    · rcases List.mem_singleton.mp h with rfl
      simp only
      split <;> omega

theorem bumpMatchup_cells (m : List (String × List (String × MatchupCell)))
    (pc oc : String) (won : Bool) (gs : Int) (hm : matchupsCellsOK m) :
    matchupsCellsOK (bumpMatchup m pc oc won gs) := by
  intro pr hpr
  simp only [bumpMatchup] at hpr
  split at hpr
  · rcases List.mem_map.mp hpr with ⟨p, hp, hppr⟩
    by_cases hpc : p.1 = pc
    · rw [if_pos hpc] at hppr
      subst hppr
      exact bumpMatchupInner_cells p.2 oc won gs (hm p hp)
    · rw [if_neg hpc] at hppr
      subst hppr
      exact hm p hp
  · rcases List.mem_append.mp hpr with h | h
    · exact hm pr h
    · rcases List.mem_singleton.mp h with rfl
      exact bumpMatchupInner_cells [] oc won gs (fun q hq => absurd hq (List.not_mem_nil q))

/-- The wins-never-exceed-games invariant on the loop accumulators, together
with the bookkeeping (distinct stage keys) that makes the per-stage reading
well defined. -/
def aggInv (a : AggState) : Prop :=
  a.total_wins ≤ a.total_games ∧
  keysDistinct a.stage_totals ∧
  (∀ k : String, (lookupAssoc a.stage_wins k).getD 0 ≤ (lookupAssoc a.stage_totals k).getD 0) ∧
  (∀ m, a.matchups = some m → matchupsCellsOK m)

theorem aggInv_of_coreEq {b a : AggState} (hc : coreEq b a) (ha : aggInv a) :
    aggInv b := by
  obtain ⟨h1, h2, h3, h4, h5⟩ := hc
  obtain ⟨haw, hakd, hasw, hamu⟩ := ha
  refine ⟨?_, ?_, ?_, ?_⟩
  · rw [h1, h2]; exact haw
  · rw [h3]; exact hakd
  · intro k; rw [h4, h3]; exact hasw k
  · intro m hm; rw [h5] at hm; exact hamu m hm

theorem cellsOK_getD (a : AggState) (ha : aggInv a) :
    matchupsCellsOK (a.matchups.getD []) := by
  cases hma : a.matchups with
  | none => exact fun pr hpr => absurd hpr (List.not_mem_nil pr)
  | some mm => exact ha.2.2.2 mm hma

theorem aggInv_of_parts (b a : AggState) (f : PerMatchFact) (stageName : String)
    (ha : aggInv a) (h1 : f.total_games = 1) (h2 : f.total_wins ≤ 1)
    (hg : b.total_games = a.total_games + f.total_games)
    (hw : b.total_wins = a.total_wins + f.total_wins)
    (hst : b.stage_totals = bumpAssoc a.stage_totals stageName 1)
    (hswe : b.stage_wins =
      bumpAssoc a.stage_wins stageName (if f.total_wins ≠ 0 then 1 else 0))
    (hmu : ∀ m, b.matchups = some m → matchupsCellsOK m) :
    aggInv b := by
  obtain ⟨haw, hakd, hasw, _⟩ := ha
  refine ⟨?_, ?_, ?_, hmu⟩
  · rw [hg, hw]; omega
  · rw [hst]; exact bumpAssoc_keysDistinct _ _ _ hakd
  · intro k
    rw [hst, hswe, lookupAssoc_bumpAssoc, lookupAssoc_bumpAssoc]
    by_cases hk : stageName = k
    · rw [if_pos hk, if_pos hk]
      simp only [Option.getD_some]
      have := hasw stageName
      split <;> omega
    · rw [if_neg hk, if_neg hk]
      exact hasw k

theorem applyGd_inv (wps wos igs : List String) (pcf ocf : Option CharFilter)
    (ro : Bool) (n i : Nat) (a : AggState) (gd : GameData) (ha : aggInv a) :
    aggInv (applyGd wps wos igs pcf ocf ro n i a gd).1 := by
  simp only [applyGd]
  cases hr : processSingleReplay gd wps wos igs pcf ocf ro with
  | nullResult => exact ha
  | excluded ts => exact ha
  | fact f =>
      have hshape := fact_shape gd wps wos igs pcf ocf ro f hr
      cases hs : stageEntry f.stage_num with
      | none => simp only [hs]; exact ha
      | some stageName =>
          simp only [hs]
          split
          · refine aggInv_of_parts _ a f stageName ha hshape.1 hshape.2 rfl rfl rfl rfl ?_
            intro m hm
            have hm2 : some (a.matchups.getD []) = some m := hm
            injection hm2 with hm3
            subst hm3
            exact cellsOK_getD a ha
          · refine aggInv_of_coreEq (miscUpdate_coreEq _ gd f) ?_
            refine aggInv_of_parts _ a f stageName ha hshape.1 hshape.2 rfl rfl rfl rfl ?_
            intro m hm
            have hm2 : some (bumpMatchup (a.matchups.getD []) f.player_character_name
                f.opponent_character_name (decide (f.total_wins ≠ 0)) f.game_seconds)
                = some m := hm
            injection hm2 with hm3
            subst hm3
            exact bumpMatchup_cells _ _ _ _ _ (cellsOK_getD a ha)

theorem aggInv_init : aggInv initAgg := by
  refine ⟨Nat.le_refl 0, List.Pairwise.nil, fun k => Nat.le_refl 0, fun m hm => ?_⟩
  exact Option.noConfusion hm

theorem runLoop_inv (wps wos igs : List String) (pcf ocf : Option CharFilter)
    (ro : Bool) (n : Nat) :
    ∀ (files : List ReplayFile) (st : RunState) (i : Nat) (cancelAt : Option Nat),
      aggInv st.agg →
      aggInv (runLoop wps wos igs pcf ocf ro n st i files cancelAt).agg := by
  intro files
  induction files with
  | nil => intro st i cAt h; exact h
  | cons file rest ih =>
      intro st i cAt h
      simp only [runLoop]
      split
      · exact h
      · exact ih _ _ _ (applyGd_inv wps wos igs pcf ocf ro n i st.agg
          (cacheStep st.cache file).1 h)

/-- `matchup_results` built from the never-written head-to-head matrix is
always empty. -/
theorem matchupRowsOf_hth : matchupRowsOf character_head_to_head = [] := by
  rfl

/-- Well-formedness of a matchups value: every cell has `wins ≤ games`. -/
def matchupsValWellFormed : MatchupsVal → Prop
  | .obj m => matchupsCellsOK m
  | .rows rows => ∀ r ∈ rows, r.wins ≤ r.games

/-- Wins never exceed games anywhere in the report: in the summary, in every
stage row, and in every matchup cell. -/
def reportWellFormed : Report → Prop
  | .noGames _ _ s => s.totalWins ≤ s.totalGames
  | .found _ _ s stages _ _ _ _ mv _ =>
      s.totalWins ≤ s.totalGames ∧
      (∀ row ∈ stages, row.2.wins ≤ row.2.games) ∧
      matchupsValWellFormed mv

theorem buildReport_wf (a : AggState) (new_replays nFiles : Nat)
    (pt ot io : List String) (pc oc : Option String) (ha : aggInv a) :
    reportWellFormed (buildReport a new_replays nFiles pt ot io pc oc) := by
  simp only [buildReport]
  split
  · exact Nat.le_refl 0
  · refine ⟨ha.1, ?_, ?_⟩
    · intro row hrow
      rcases List.mem_map.mp hrow with ⟨sr, hsr, hsrrow⟩
      subst hsrrow
      have hsr2 : sr ∈ buildStageResults a := (mem_jsSort _ sr _).mp hsr
      rcases List.mem_map.mp hsr2 with ⟨p, hp, hpsr⟩
      subst hpsr
      show (lookupAssoc a.stage_wins p.1).getD 0 ≤ p.2
      have h4 := ha.2.2.1 p.1
      rw [lookupAssoc_of_mem_distinct a.stage_totals ha.2.1 p hp] at h4
      simpa using h4
    · cases hma : a.matchups with
      | some mm => exact ha.2.2.2 mm hma
      | none =>
          simp only [matchupRowsOf_hth]
          intro r hr
          simp [jsSort] at hr

/-- C10.  Wins never exceed games at every level of aggregation, at every
point of the run (any prefix of the file list, any cancellation point) and in
the final report: `total_wins ≤ total_games`, each stage entry has
wins ≤ games, and each matchup cell has wins ≤ games, because a qualifying
match contributes exactly 1 to the games counters and at most 1 to the wins
counters. -/
theorem wins_le_games_invariant (files : List ReplayFile) (options : Options)
    (cache0 : List (String × GameData)) (cancelAt : Option Nat) (j : Nat) :
    aggInv (runAll (files.take j) options cache0 cancelAt).agg ∧
    reportWellFormed (analyzeReplays files options cache0 cancelAt).report := by
  constructor
  · exact runLoop_inv _ _ _ _ _ _ _ (files.take j) (initState cache0) 0 cancelAt aggInv_init
  · exact buildReport_wf _ _ _ _ _ _ _ _
      (runLoop_inv _ _ _ _ _ _ _ files (initState cache0) 0 cancelAt aggInv_init)

end SlippiStats
